import Mathlib

/-
Verification development for the Fractal renderer (src/src/main.cpp).
The scalar type kompleks_type (C long double) is modelled by ℝ.
Machine integers: uint_fast64_t arithmetic is modelled on ℕ with explicit
reduction modulo 2^64 where the C computation can wrap; int128 likewise.
-/

/-- Modelled from the spec: the two-component complex value type of
kompleks.hpp, which is not present under src/.  Spec §3 ComplexValue:
fields real and imag over the widest floating type (modelled as ℝ). -/
structure kompleks where
  real : ℝ
  imag : ℝ

noncomputable instance : DecidableEq kompleks := Classical.decEq _

instance : Zero kompleks := ⟨⟨0, 0⟩⟩

/-- Modelled from the spec: componentwise addition (spec §3 "add"). -/
instance : Add kompleks := ⟨fun a b => ⟨a.real + b.real, a.imag + b.imag⟩⟩

/-- Modelled from the spec: componentwise subtraction (spec §3 "subtract"). -/
instance : Sub kompleks := ⟨fun a b => ⟨a.real - b.real, a.imag - b.imag⟩⟩

/-- Modelled from the spec: complex multiplication (spec §3 "multiply"). -/
instance : Mul kompleks :=
  ⟨fun a b => ⟨a.real * b.real - a.imag * b.imag, a.real * b.imag + a.imag * b.real⟩⟩

namespace kompleks

/-- Modelled from the spec: squared-norm (spec §3 "squared-norm"); main.cpp
calls it Z.norm(). -/
def norm (z : kompleks) : ℝ := z.real * z.real + z.imag * z.imag

/-- Modelled from the spec: modulus (spec §3 "modulus"); main.cpp calls it
Z.abs(). -/
noncomputable def abs (z : kompleks) : ℝ := Real.sqrt (norm z)

/-- Modelled from the spec: conjugate (spec §3 "conjugate"). -/
def conjugate (z : kompleks) : kompleks := ⟨z.real, -z.imag⟩

/-- Modelled from the spec: swap-components (spec §3 "swap-components");
main.cpp calls it Z.swap_xy(). -/
def swap_xy (z : kompleks) : kompleks := ⟨z.imag, z.real⟩

/-- Modelled from the spec: reciprocal, the conjugate divided componentwise by
the squared-norm (spec §3 "reciprocal"). -/
noncomputable def reciprocal (z : kompleks) : kompleks := ⟨z.real / norm z, -z.imag / norm z⟩

/-- View as a Mathlib complex number (std::complex in untitled1 / collatz). -/
def toC (z : kompleks) : ℂ := ⟨z.real, z.imag⟩

/-- Back from a Mathlib complex number. -/
def ofC (w : ℂ) : kompleks := ⟨w.re, w.im⟩

/-- Modelled from the spec: the argument θ of the value, used by the
polar-form power operation. -/
noncomputable def arg (z : kompleks) : ℝ := Complex.arg (toC z)

/-- Modelled from the spec: generalized power via polar-form exponentiation,
spec §3: r^e * (cos(eθ) + i·sin(eθ)) with r, θ the modulus and argument of
the base.  (Division by zero and 0^negative follow the real-number model,
not IEEE specials; spec §4.1 notes 0^negative is implementation-defined.) -/
noncomputable def kpow (z : kompleks) (e : ℝ) : kompleks :=
  ⟨abs z ^ e * Real.cos (e * arg z), abs z ^ e * Real.sin (e * arg z)⟩

end kompleks

noncomputable instance : HPow kompleks ℝ kompleks := ⟨kompleks.kpow⟩

/-- Modelled from the spec: complex division, as multiplication by the
reciprocal (spec §3 "divide"; main.cpp line 657 records the equivalence). -/
noncomputable instance : Div kompleks := ⟨fun a b => a * b.reciprocal⟩

instance : HMul ℝ kompleks kompleks := ⟨fun s z => ⟨s * z.real, s * z.imag⟩⟩

noncomputable instance : HDiv kompleks ℝ kompleks := ⟨fun z s => ⟨z.real / s, z.imag / s⟩⟩

instance : HAdd ℝ kompleks kompleks := ⟨fun s z => ⟨s + z.real, z.imag⟩⟩

instance : HSub kompleks ℝ kompleks := ⟨fun z s => ⟨z.real - s, z.imag⟩⟩

/-- The sixteen fractal variants (main.cpp FRACTAL_TYPE list, lines 37-59). -/
inductive FractalType where
  | mandelbrot
  | julia
  | burning_ship
  | tricorn
  | neuron
  | clouds
  | oops
  | stupidbrot
  | untitled1
  | dots
  | magnet1
  | experiment
  | mandelbox
  | negamandelbrot
  | collatz
  | experiment2
deriving DecidableEq, Repr

/-- FractalType_strings paired with the corresponding enumerator, in
declaration order (main.cpp lines 37-67). -/
def FractalType_table : List (String × FractalType) :=
  [("mandelbrot", .mandelbrot), ("julia", .julia), ("burning ship", .burning_ship),
   ("tricorn", .tricorn), ("neuron", .neuron), ("clouds", .clouds), ("oops", .oops),
   ("stupidbrot", .stupidbrot), ("untitled 1", .untitled1), ("dots", .dots),
   ("magnet 1", .magnet1), ("experiment", .experiment), ("mandelbox", .mandelbox),
   ("negamandelbrot", .negamandelbrot), ("collatz", .collatz),
   ("experiment2", .experiment2)]

/-- string_to_fractal_type (main.cpp lines 70-81): first table entry whose
name equals the argument; otherwise the "Unknown fractal type" error. -/
def string_to_fractal_type (s : String) : Except String FractalType :=
  match FractalType_table.find? (fun p => p.1 == s) with
  | some p => .ok p.2
  | none => .error ("Unknown fractal type: " ++ s)

/-- FractalOptions (main.cpp lines 93-115). -/
structure FractalOptions where
  type : FractalType
  exponent : ℝ
  escape_limit : ℝ
  single : Bool
  lbound : ℝ
  rbound : ℝ
  bbound : ℝ
  ubound : ℝ
  juliaA : ℝ
  juliaB : ℝ

/-- ColorOptions (main.cpp lines 117-129). -/
structure ColorOptions where
  method : ℕ
  smooth : Bool
  disable_fancy : Bool
  multiplier : ℝ
  c_log : ℕ

/-- One step of the per-variant recurrence: iterate (main.cpp lines 594-721).
c is passed by reference in the source; the returned pair is (new Z, new c).
Only the clouds and oops variants modify c. -/
noncomputable def iterate (o : FractalOptions) (Z c : kompleks) (n : ℕ) :
    kompleks × kompleks :=
  match o.type with
  | .mandelbrot => ((Z ^ o.exponent) + c, c)
  | .julia => ((Z ^ o.exponent) + c, c)
  | .burning_ship => ((kompleks.mk |Z.real| |Z.imag| ^ o.exponent) + c, c)
  | .tricorn => ((Z.conjugate ^ o.exponent) + c, c)
  | .neuron => ((Z.swap_xy ^ o.exponent) + Z, c)
  | .clouds => ((Z.swap_xy ^ o.exponent) + c, Z)
  | .oops => ((Z.swap_xy ^ o.exponent) + c, Z)
  | .stupidbrot =>
      (if n % 2 = 0 then (Z ^ o.exponent) + c else (Z ^ o.exponent) - c, c)
  | .untitled1 => (kompleks.ofC (Z.toC ^ Z.toC) + Z, c)
  | .dots => ((Z ^ o.exponent) * c.reciprocal, c)
  | .magnet1 =>
      ((((Z ^ (2 : ℝ)) + (c - (1 : ℝ))) / ((Z * ⟨2, 0⟩) + (c - (2 : ℝ)))) ^ (2 : ℝ), c)
  | .experiment => ((Z ^ o.exponent) + c.reciprocal, c)
  | .mandelbox =>
      let boxfold : ℝ → ℝ := fun component =>
        if component > 1 then 2 - component
        else if component < -1 then -2 - component
        else component
      let Z1 : kompleks := ⟨boxfold Z.real, boxfold Z.imag⟩
      let Z2 : kompleks :=
        if Z1.abs < 0.5 then Z1 / (0.25 : ℝ)
        else if Z1.abs < 1 then Z1 / Z1.norm
        else Z1
      (o.exponent * Z2 + c, c)
  | .negamandelbrot => ((Z ^ (1 / o.exponent)) - c, c)
  | .collatz =>
      (((2 : ℝ) + ((7 : ℝ) * Z) -
          ((2 : ℝ) + ((5 : ℝ) * Z)) * kompleks.ofC (Complex.cos (Real.pi * Z.toC))) /
        (4 : ℝ), c)
  | .experiment2 => ((Z ^ o.exponent) + (c ^ (1 / o.exponent)), c)

/-- can_skip (main.cpp lines 723-807): the analytic skip predicate.  Applies
only when not single, variant mandelbrot, escape limit exactly 4; then a
closed-form region test depending on the exponent. -/
def can_skip (o : FractalOptions) (x y : ℝ) : Prop :=
  if o.single = true ∨ o.type ≠ .mandelbrot ∨ o.escape_limit ≠ 4 then False
  else if o.exponent = 2 then
    ((x - 0.25) * (x - 0.25) + y * y) * (((x - 0.25) * (x - 0.25) + y * y) + (x - 0.25))
        < 0.25 * (y * y)
      ∨ (x + 1) * (x + 1) + y * y < 0.0625
  else if o.exponent = 3 then
    x * x < 4 / 27 - y * y + (4 * (y * y)) ^ ((1 : ℝ) / 3) / 3
  else if o.exponent = 4 then
    x * x + y * y < 0.2232282729330280511369586055226683491
  else if o.exponent = 5 then
    x * x + y * y < 0.2862167011199730811403742295976033581
  else False

noncomputable instance (o : FractalOptions) (x y : ℝ) : Decidable (can_skip o x y) :=
  Classical.propDecidable _

/-- The environment's C rand machinery, abstracted: srand corresponds to
seed, rand to next.  The concrete generator is implementation-defined. -/
structure RandGen (σ : Type) where
  seed : ℕ → σ
  next : σ → ℕ × σ

/-- A color-channel value of type kompleks_type: a finite real, or the
positive/negative infinity produced by the INF sentinel and by log 0.
(IEEE NaN cases - log of a negative, inf times zero - are modelled as the
value that clamps the same way; see logC and scale.) -/
inductive Chan where
  | fin (x : ℝ)
  | inf
  | ninf

namespace Chan

/-- Adding a finite real to a channel value. -/
def addR : Chan → ℝ → Chan
  | fin x, r => fin (x + r)
  | inf, _ => inf
  | ninf, _ => ninf

/-- Multiplying a channel value by a finite real.  An infinity times zero is
NaN in C; it is modelled as 0 (both clamp into range). -/
noncomputable def scale : Chan → ℝ → Chan
  | fin x, r => fin (x * r)
  | inf, r => if 0 < r then inf else if r = 0 then fin 0 else ninf
  | ninf, r => if 0 < r then ninf else if r = 0 then fin 0 else inf

/-- One std::log pass on a channel (main.cpp lines 534-539): log of +inf is
+inf, log 0 is -inf; log of a negative value is NaN in C, modelled as -inf
(both clamp to 0). -/
noncomputable def logC : Chan → Chan
  | inf => inf
  | ninf => ninf
  | fin x => if 0 < x then fin (Real.log x) else ninf

/-- The final clamp to [0,255] followed by round and the cast to uint8_t
(main.cpp lines 560-589). -/
noncomputable def clampRound : Chan → ℕ
  | inf => 255
  | ninf => 0
  | fin x => if x > 255 then 255 else if x < 0 then 0 else (round x).toNat

end Chan

/-- HSV2RGB (main.cpp lines 132-174).  The two while loops bring h into
[0,1), which for finite h equals taking the fractional part; the final
uint_fast8_t casts truncate values in [0,255]. -/
noncomputable def HSV2RGB (h0 s v0 : ℝ) : ℕ × ℕ × ℕ :=
  let h := Int.fract h0 * 6
  let index : ℤ := ⌊h⌋
  let f := h - (index : ℝ)
  let p := (v0 * (1 - s)) * 255
  let q := (v0 * (1 - s * f)) * 255
  let t := (v0 * (1 - s * (1 - f))) * 255
  let v := v0 * 255
  let kast : ℝ → ℕ := fun x => (⌊x⌋).toNat
  match index.toNat with
  | 0 => (kast v, kast t, kast p)
  | 1 => (kast q, kast v, kast p)
  | 2 => (kast p, kast v, kast t)
  | 3 => (kast p, kast q, kast v)
  | 4 => (kast t, kast p, kast v)
  | 5 => (kast v, kast p, kast q)
  | _ => (0, 0, 0)

/-- Modulus of uint_fast64_t arithmetic. -/
def U64 : ℕ := 2 ^ 64

/-- INT128_MAX (main.cpp line 28). -/
def I127 : ℕ := 2 ^ 127 - 1

/-- The method-specific colorize formulas: the switch of main.cpp lines
187-532, producing the three unclamped channel values.  fpx is the result of
the recursive colorize(0, ...) call, used only by method 9 (the caller
computes it; see colorize below).  Method 14 consumes the rand generator
after reseeding it from n (srand(n), main.cpp line 496). -/
noncomputable def colorizeF {σ : Type} (g : RandGen σ) (o : FractalOptions)
    (copt : ColorOptions) (fpx : ℕ × ℕ × ℕ) (m : ℕ) (Z _c : kompleks) (n : ℕ)
    (rng : σ) : Except String ((Chan × Chan × Chan) × σ) :=
  let Zr2 := Z.real * Z.real
  let Zi2 := Z.imag * Z.imag
  match m with
  | 0 =>
    if copt.smooth then
      let dx := (Real.log (Real.log o.escape_limit) - Real.log (Real.log Z.abs)) /
        Real.log o.exponent
      let np := (n : ℝ) + dx
      .ok ((.fin ((round (np * 2) : ℤ) : ℝ), .fin ((round np : ℤ) : ℝ),
        .fin ((round (np / 2) : ℤ) : ℝ)), rng)
    else
      .ok ((.fin ((2 * n % U64 : ℕ) : ℝ), .fin (n : ℝ), .fin ((n / 2 : ℕ) : ℝ)), rng)
  | 1 =>
    let rb : ℝ × ℝ := if copt.disable_fancy = false then (Zr2, Zi2) else (0, 0)
    let g0 : ℝ :=
      if copt.smooth then
        let dx := (Real.log (Real.log o.escape_limit) - Real.log (Real.log Z.abs)) /
          Real.log o.exponent
        ((round ((n : ℝ) + dx) : ℤ) : ℝ)
      else (n : ℝ)
    if g0 > 255 then
      let difference := g0 - 255
      let b1 := difference * 2
      if b1 > 255 then .ok ((.fin (b1 * 2), .fin 200, .fin 200), rng)
      else .ok ((.fin rb.1, .fin 255, .fin b1), rng)
    else .ok ((.fin rb.1, .fin g0, .fin rb.2), rng)
  | 2 =>
    .ok ((.fin (Zr2 * Zi2), .fin (Zr2 + Zi2),
      if Zi2 = 0 then .inf else .fin (Zr2 / Zi2)), rng)
  | 3 =>
    let rg : Chan × Chan :=
      if Zr2 = 0 then (.inf, .inf)
      else (.fin ((Zr2 * Zr2 * Zr2 + 1) / Zr2), .fin (Zi2 / Zr2))
    .ok ((rg.1, rg.2, .fin (Zi2 * Zi2)), rng)
  | 4 =>
    let v := Z.real * Real.sin (Z.imag + Zi2) - Zr2
    .ok ((.fin v, .fin v, .fin v), rng)
  | 5 =>
    let red : Chan := if Zr2 ≤ 1 / ((2 ^ 64 - 1 : ℕ) : ℝ) then .fin ((2 ^ 64 - 1 : ℕ) : ℝ)
      else .fin ((round (1 / Zr2) : ℤ) : ℝ)
    let green : Chan := if Zr2 ≤ 0.00588 then .fin ((2 ^ 64 - 1 : ℕ) : ℝ)
      else .fin ((round (1.5 / Zr2) : ℤ) : ℝ)
    let blue : Chan := if Zr2 ≤ 0.00294 then .fin ((2 ^ 64 - 1 : ℕ) : ℝ)
      else .fin ((round (0.75 / Zr2) : ℤ) : ℝ)
    .ok ((red, green, blue), rng)
  | 6 =>
    let red : Chan := if Zr2 = 0 then .fin ((2 ^ 64 - 1 : ℕ) : ℝ)
      else .fin ((round (1.5 / Zr2) : ℤ) : ℝ)
    let green : Chan := if Zr2 = 0 then .fin ((2 ^ 64 - 1 : ℕ) : ℝ)
      else .fin ((round (0.75 / Zr2) : ℤ) : ℝ)
    let blue : Chan := if Zr2 = 0 then .fin ((2 ^ 64 - 1 : ℕ) : ℝ)
      else .fin ((round (1 / Zr2) : ℤ) : ℝ)
    .ok ((red, green, blue), rng)
  | 7 =>
    let red : Chan := if Zr2 ≤ 0.00294 then .fin ((2 ^ 64 - 1 : ℕ) : ℝ)
      else .fin ((round (0.75 / Zr2) : ℤ) : ℝ)
    let green : Chan := if Zr2 ≤ 0.00392 then .fin ((2 ^ 64 - 1 : ℕ) : ℝ)
      else .fin ((round (1 / Zr2) : ℤ) : ℝ)
    let blue : Chan := if Zr2 ≤ 0.00588 then .fin ((2 ^ 64 - 1 : ℕ) : ℝ)
      else .fin ((round (1.5 / Zr2) : ℤ) : ℝ)
    .ok ((red, green, blue), rng)
  | 8 =>
    let r0 : Chan := if Zr2 = 0 then .inf
      else .fin (Zi2 / Zr2 + ((2 * n % U64 : ℕ) : ℝ))
    let g0 : Chan := if Zi2 = 0 then .inf
      else .fin (Zr2 / Zi2 + (n : ℝ))
    let b8 : ℝ :=
      if Zi2 > ((I127 / 255 : ℕ) : ℝ) ∨ Zr2 > ((I127 / 255 : ℕ) : ℝ) then (I127 : ℝ)
      else ((Nat.xor (round (Zi2 * 255)).toNat (round (Zr2 * 255)).toNat : ℕ) : ℝ)
    .ok (((r0.addR (b8 * 0.5)).scale 0.1, (g0.addR (b8 * 0.2)).scale 0.1,
      .fin (b8 * 0.1)), rng)
  | 9 =>
    let red0 : ℕ := Nat.xor ((round (Zr2 * 8)).toNat % U64) ((round (Zi2 * 8)).toNat % U64)
    let green0 : ℕ := Nat.xor ((round (Zr2 * 2)).toNat % U64) ((round (Zi2 * 2)).toNat % U64)
    let blue0 : ℕ := Nat.xor ((round (Zr2 * 4)).toNat % U64) ((round (Zi2 * 4)).toNat % U64)
    let r1 : ℝ := (red0 : ℝ) * 0.7
    let g1 : ℝ := (green0 : ℝ) * 0.7
    let b1 : ℝ := (blue0 : ℝ) * 0.7
    let blue_stripe : ℕ := if Zr2 = 0 then 255 else (round (Zi2 / Zr2)).toNat % U64
    let green_stripe0 : ℕ := if Zi2 = 0 then 255 else (round (Zr2 / Zi2)).toNat % U64
    let green_stripe1 : ℕ := (green_stripe0 + blue_stripe) % U64
    let r2 := r1 * copt.multiplier
    let g2 := g1 * copt.multiplier
    let b2 := b1 * copt.multiplier
    let r3 := if r2 > 255 then (255 : ℝ) else r2
    let g3 := if g2 > 255 then (255 : ℝ) else g2
    let b3 := if b2 > 255 then (255 : ℝ) else b2
    let gs := if green_stripe1 > 255 then 255 else green_stripe1
    let bs := if blue_stripe > 255 then 255 else blue_stripe
    let r4 := r3 - (if (bs : ℝ) > r3 then r3 else (bs : ℝ))
    let r5 := r4 - (if (gs : ℝ) > r4 then r4 else (gs : ℝ))
    let g4 := g3 - (if (bs : ℝ) > g3 then g3 else (bs : ℝ))
    let g5 := g4 - (if (gs : ℝ) > g4 then g4 else (gs : ℝ))
    let b4 := b3 - (if (bs : ℝ) > b3 then b3 else (bs : ℝ))
    let b5 := b4 - (if (gs : ℝ) > b4 then b4 else (gs : ℝ))
    let sub := fpx.1 + fpx.2.1 + fpx.2.2
    let r6 := r5 - (if (sub : ℝ) > r5 then r5 else (sub : ℝ))
    let gs2 := gs - (if sub > gs then gs else sub)
    let bs2 := bs - (if sub > bs then bs else sub)
    .ok ((.fin (r6 + (fpx.1 : ℝ)), .fin (g5 + ((gs2 + fpx.2.1 : ℕ) : ℝ)),
      .fin (b5 + ((bs2 + fpx.2.2 : ℕ) : ℝ))), rng)
  | 10 =>
    .ok ((.fin ((Nat.xor (2 * n % U64) n : ℕ) : ℝ), .fin (n : ℝ),
      .fin ((Nat.xor (n / 2) n : ℕ) : ℝ)), rng)
  | 11 =>
    .ok ((.fin Zr2, .fin (Zr2 * Zi2), .fin Zi2), rng)
  | 12 =>
    .ok ((.fin 255, .fin 255, .fin 255), rng)
  | 13 =>
    .ok ((.fin (((4 * n % U64 + 5) % U64 : ℕ) : ℝ), .fin (((2 * n % U64 + 1) % U64 : ℕ) : ℝ),
      .fin (((4 * n % U64 + 2) % U64 : ℕ) : ℝ)), rng)
  | 14 =>
    let s0 := g.seed n
    let p1 := g.next s0
    let p2 := g.next p1.2
    let p3 := g.next p2.2
    .ok ((.fin ((p1.1 &&& 255 : ℕ) : ℝ), .fin ((p2.1 &&& 255 : ℕ) : ℝ),
      .fin ((p3.1 &&& 255 : ℕ) : ℝ)), p3.2)
  | 15 =>
    let cs := HSV2RGB (((n % 256 : ℕ) : ℝ) / 256) 1 1
    .ok ((.fin (cs.1 : ℝ), .fin (cs.2.1 : ℝ), .fin (cs.2.2 : ℝ)), rng)
  | 16 =>
    .ok ((.fin (((n * n % U64 : ℕ) : ℝ) * 0.1), .fin (n : ℝ), .fin (Zr2 * Zi2)), rng)
  | 17 =>
    let r := 2 * Real.sin Zr2
    let g := 2 * Real.cos Zi2
    let b := r * g
    .ok ((.fin (r * 127), .fin (g * 127), .fin (b * 127)), rng)
  | _ => .error ("Invalid color method: " ++ toString m)

/-- The c_log successive log passes (main.cpp lines 534-539). -/
noncomputable def applyLogs : ℕ → (Chan × Chan × Chan) → (Chan × Chan × Chan)
  | 0, ch => ch
  | k + 1, ch => applyLogs k (ch.1.logC, ch.2.1.logC, ch.2.2.logC)

/-- The multiplier step (main.cpp lines 541-558): applied to every channel
unless the method is 9. -/
noncomputable def applyMult (copt : ColorOptions) (m : ℕ)
    (ch : Chan × Chan × Chan) : Chan × Chan × Chan :=
  if m ≠ 9 then
    (ch.1.scale copt.multiplier, ch.2.1.scale copt.multiplier, ch.2.2.scale copt.multiplier)
  else ch

/-- The final clamp-and-round of all three channels (main.cpp lines 560-591). -/
noncomputable def clampRound3 (ch : Chan × Chan × Chan) : ℕ × ℕ × ℕ :=
  (ch.1.clampRound, ch.2.1.clampRound, ch.2.2.clampRound)

/-- colorize (main.cpp lines 176-592): the method formula, then the c_log log
passes, then the multiplier (skipped for method 9), then clamp and round.
Method 9 first invokes the full colorize for method 0 (main.cpp line 400). -/
noncomputable def colorize {σ : Type} (g : RandGen σ) (o : FractalOptions)
    (copt : ColorOptions) (m : ℕ) (Z c : kompleks) (n : ℕ) (rng : σ) :
    Except String ((ℕ × ℕ × ℕ) × σ) := do
  let fr ← if h : m = 9 then colorize g o copt 0 Z c n rng else pure ((0, 0, 0), rng)
  let r ← colorizeF g o copt fr.1 m Z c n fr.2
  pure (clampRound3 (applyMult copt m (applyLogs copt.c_log r.1)), r.2)
termination_by m
decreasing_by subst h; omega

/-- The classification a pixel's inner loop ends with: the escaped branch
(main.cpp lines 994-1004, also taken in single mode at the budget), the
bounded branch (lines 1005-1010), or the periodicity branch (lines
1014-1042).  Each carries the loop counter n at termination; escaped also
carries the Z and c passed to colorize. -/
inductive Outcome where
  | escaped (n : ℕ) (Z c : kompleks)
  | notEscaped (n : ℕ)
  | periodic (dist n : ℕ)

/-- One read of the volatile cancellation flag.  The flag is set once by the
SIGINT handler and never cleared, so a monotone signal is modelled by the
poll index from which reads return true (none: never set). -/
def readCancel (ca : Option ℕ) (i : ℕ) : Bool :=
  match ca with
  | none => false
  | some T => decide (T ≤ i)

/-- Index of the first occurrence in the window, as found by std::find
(main.cpp line 1017). -/
noncomputable def firstIdx : List kompleks → kompleks → ℕ
  | [], _ => 0
  | a :: t, z => if a = z then 0 else firstIdx t z + 1

/-- The per-pixel iteration loop (main.cpp lines 991-1047).  Arguments after
ca: remaining loop iterations (the loop runs n = 0..max_iterations, so the
initial call passes max_iterations + 1), the loop counter n, Z, c, the
periodicity window pCheck, and the current poll index of the cancellation
flag.  Returns the outcome (none when cancelled mid-pixel or the loop
condition ran out), the poll index afterwards, and the number of loop
iterations entered (the contribution to the run statistic). -/
noncomputable def pixelLoop (o : FractalOptions) (maxIt pcN : ℕ) (ca : Option ℕ) :
    ℕ → ℕ → kompleks → kompleks → List kompleks → ℕ → Option Outcome × ℕ × ℕ
  | 0, _, _, _, _, pollIdx => (none, pollIdx, 0)
  | fuel + 1, n, Z, c, w, pollIdx =>
    if (o.single = true ∧ n = maxIt) ∨
        (o.single = false ∧ Z.norm > o.escape_limit ∧ 0 < n) then
      (some (.escaped n Z c), pollIdx, 1)
    else if n = maxIt then (some (.notEscaped n), pollIdx, 1)
    else
      let Zc := iterate o Z c n
      if o.single = false ∧ 0 < pcN ∧ Zc.1 ∈ w then
        (some (.periodic (pcN - firstIdx w Zc.1) n), pollIdx, 1)
      else
        let w1 := if o.single = false ∧ 0 < pcN then w.tail ++ [Zc.1] else w
        if readCancel ca pollIdx then (none, pollIdx + 1, 1)
        else
          let r := pixelLoop o maxIt pcN ca fuel (n + 1) Zc.1 Zc.2 w1 (pollIdx + 1)
          (r.1, r.2.1, r.2.2 + 1)

/-- Initial per-pixel Z (main.cpp lines 971-978): the pixel point, except for
the clouds and mandelbrot variants where the default-constructed zero is
kept. -/
def initZ (t : FractalType) (x y : ℝ) : kompleks :=
  if t ≠ .clouds ∧ t ≠ .mandelbrot then ⟨x, y⟩ else 0

/-- Initial per-pixel c (main.cpp lines 980-987): the Julia constant for the
julia variant, otherwise the pixel point. -/
def initC (o : FractalOptions) (x y : ℝ) : kompleks :=
  if o.type = .julia then ⟨o.juliaA, o.juliaB⟩ else ⟨x, y⟩

/-- The full classification of one non-skipped pixel: seed Z and c, fill the
window with the initial Z (main.cpp line 989), then run the loop. -/
noncomputable def classifyPixel (o : FractalOptions) (maxIt pcN : ℕ) (ca : Option ℕ)
    (x y : ℝ) (pollIdx : ℕ) : Option Outcome × ℕ × ℕ :=
  pixelLoop o maxIt pcN ca (maxIt + 1) 0 (initZ o.type x y) (initC o x y)
    (List.replicate pcN (initZ o.type x y)) pollIdx

/-- The orbit of a pixel: (Z, c) before iteration n of the loop, i.e. after n
applications of the recurrence. -/
noncomputable def orbitP (o : FractalOptions) (x y : ℝ) : ℕ → kompleks × kompleks
  | 0 => (initZ o.type x y, initC o x y)
  | n + 1 => iterate o (orbitP o x y n).1 (orbitP o x y n).2 n

/-- The Z component of the orbit. -/
noncomputable def orbitZ (o : FractalOptions) (x y : ℝ) (n : ℕ) : kompleks :=
  (orbitP o x y n).1

/-- The periodicity window contents at the start of loop iteration n,
assuming no earlier match terminated the loop (normal mode). -/
noncomputable def windowAt (o : FractalOptions) (pcN : ℕ) (x y : ℝ) : ℕ → List kompleks
  | 0 => List.replicate pcN (initZ o.type x y)
  | n + 1 =>
    let w := windowAt o pcN x y n
    if 0 < pcN ∧ orbitZ o x y (n + 1) ∉ w then w.tail ++ [orbitZ o x y (n + 1)] else w

/-- The renderer state: the statistics counters of createFractal (main.cpp
lines 923-933), the image raster, the cancellation poll index, and the C
library rand state. -/
structure RenderState (σ : Type) where
  periodic : ℕ
  escaped : ℕ
  not_escaped : ℕ
  skipped : ℕ
  run : ℕ
  max_n : ℕ
  max_period : ℕ
  max_period_n : ℕ
  currentPoint : ℕ
  img : ℕ × ℕ → ℕ × ℕ × ℕ
  pollIdx : ℕ
  rng : σ

/-- A fresh png++ image: every pixel starts black. -/
def initImage : ℕ × ℕ → ℕ × ℕ × ℕ := fun _ => (0, 0, 0)

/-- The renderer state before the pixel traversal. -/
def initState {σ : Type} (rng : σ) : RenderState σ :=
  ⟨0, 0, 0, 0, 0, 0, 0, 0, 0, initImage, 0, rng⟩

/-- Statistics update for one classified pixel (main.cpp lines 996-1002,
1005-1009, 1020-1029): exactly one of the four counters is incremented, an
escaped pixel is colorized and written into the raster, run accumulates the
iterations entered, and the poll index advances to the loop's final value. -/
noncomputable def applyOutcome {σ : Type} (g : RandGen σ) (o : FractalOptions)
    (copt : ColorOptions) (pX pY : ℕ) (res : Option Outcome × ℕ × ℕ)
    (st : RenderState σ) : Except String (RenderState σ) :=
  let st1 := { st with run := st.run + res.2.2, pollIdx := res.2.1 }
  match res.1 with
  | none => .ok st1
  | some (.escaped n Zf cf) => do
    let pr ← colorize g o copt copt.method Zf cf n st1.rng
    .ok { st1 with escaped := st1.escaped + 1,
                   max_n := if n > st1.max_n then n else st1.max_n,
                   img := fun p => if p = (pX, pY) then pr.1 else st1.img p,
                   rng := pr.2 }
  | some (.notEscaped _) => .ok { st1 with not_escaped := st1.not_escaped + 1 }
  | some (.periodic d n) =>
    .ok { st1 with periodic := st1.periodic + 1,
                   max_period := if d > st1.max_period then d else st1.max_period,
                   max_period_n := if n > st1.max_period_n then n else st1.max_period_n }

/-- The configuration a render runs with. -/
structure RenderCfg where
  o : FractalOptions
  copt : ColorOptions
  width_px : ℕ
  height_px : ℕ
  max_iterations : ℕ
  pCheckN : ℕ

/-- The x coordinate sampled for column pX (main.cpp lines 920, 961). -/
noncomputable def pixelX (cfg : RenderCfg) (pX : ℕ) : ℝ :=
  cfg.o.lbound + pX * ((cfg.o.rbound - cfg.o.lbound) / cfg.width_px)
    + ((cfg.o.rbound - cfg.o.lbound) / cfg.width_px) / 2

/-- The y coordinate sampled for row pY (main.cpp lines 921, 962). -/
noncomputable def pixelY (cfg : RenderCfg) (pY : ℕ) : ℝ :=
  cfg.o.ubound - pY * ((cfg.o.ubound - cfg.o.bbound) / cfg.height_px)
    - ((cfg.o.ubound - cfg.o.bbound) / cfg.height_px) / 2

/-- Processing of one pixel (main.cpp lines 961-1049): skip check, then
either the skipped counter or the classification loop with its statistics
update. -/
noncomputable def renderPixel {σ : Type} (g : RandGen σ) (cfg : RenderCfg)
    (ca : Option ℕ) (pX pY : ℕ) (st : RenderState σ) :
    Except String (RenderState σ) :=
  let x := pixelX cfg pX
  let y := pixelY cfg pY
  if can_skip cfg.o x y then .ok { st with skipped := st.skipped + 1 }
  else
    applyOutcome g cfg.o cfg.copt pX pY
      (classifyPixel cfg.o cfg.max_iterations cfg.pCheckN ca x y st.pollIdx) st

/-- The inner pX loop (main.cpp lines 951-1055): after each pixel the
cancellation flag is polled; if set, the break leaves this row only, and
currentPoint is not incremented for that pixel. -/
noncomputable def renderRow {σ : Type} (g : RandGen σ) (cfg : RenderCfg)
    (ca : Option ℕ) (pY : ℕ) :
    ℕ → ℕ → RenderState σ → Except String (RenderState σ)
  | 0, _, st => .ok st
  | cols + 1, pX, st => do
    let st1 ← renderPixel g cfg ca pX pY st
    if readCancel ca st1.pollIdx then .ok { st1 with pollIdx := st1.pollIdx + 1 }
    else
      renderRow g cfg ca pY cols (pX + 1)
        { st1 with pollIdx := st1.pollIdx + 1, currentPoint := st1.currentPoint + 1 }

/-- The outer pY loop (main.cpp lines 949-1056).  It has no cancellation
check of its own: after a cancelled row the next row is still entered. -/
noncomputable def renderRows {σ : Type} (g : RandGen σ) (cfg : RenderCfg)
    (ca : Option ℕ) :
    ℕ → ℕ → RenderState σ → Except String (RenderState σ)
  | 0, _, st => .ok st
  | rows + 1, pY, st => do
    let st1 ← renderRow g cfg ca pY cfg.width_px 0 st
    renderRows g cfg ca rows (pY + 1) st1

/-- createFractal (main.cpp lines 916-1088), restricted to its observable
core: the grid traversal with statistics, raster and cancellation. -/
noncomputable def createFractal {σ : Type} (g : RandGen σ) (rng : σ)
    (cfg : RenderCfg) (ca : Option ℕ) : Except String (RenderState σ) :=
  renderRows g cfg ca cfg.height_px 0 (initState rng)

/-- The self-check printed after the render (main.cpp lines 1080-1083):
true when the program would print "There is a bug somewhere". -/
def bug_check {σ : Type} (st : RenderState σ) : Bool :=
  decide (st.escaped + st.not_escaped + st.periodic + st.skipped ≠ st.currentPoint)

/-- The raw command-line configuration consumed by main (main.cpp lines
1193-1235), already parsed into typed values. -/
structure RawArgs where
  typestr : String
  method : ℕ
  smooth : Bool
  disable_fancy : Bool
  single : Bool
  multiplier : ℝ
  c_log : ℕ
  exponent : ℝ
  escape_limit : ℝ
  max_iterations : ℕ
  juliaA : ℝ
  juliaB : ℝ
  pCheckN : ℕ
  width_px : ℕ
  height_px : ℕ
  lbound : ℝ
  rbound : ℝ
  bbound : ℝ
  ubound : ℝ

/-- The configuration-then-render path of main (main.cpp lines 1193-1251):
the fractal-type name is resolved before the render starts (a failure exits
main before createFractal); no validation of the color-method index happens
here. -/
noncomputable def mainRun {σ : Type} (g : RandGen σ) (rng : σ) (a : RawArgs)
    (ca : Option ℕ) : Except String (RenderState σ) := do
  let t ← string_to_fractal_type a.typestr
  createFractal g rng
    { o := { type := t, exponent := a.exponent, escape_limit := a.escape_limit,
             single := a.single, lbound := a.lbound, rbound := a.rbound,
             bbound := a.bbound, ubound := a.ubound,
             juliaA := a.juliaA, juliaB := a.juliaB },
      copt := { method := a.method, smooth := a.smooth,
                disable_fancy := a.disable_fancy,
                multiplier := a.multiplier, c_log := a.c_log },
      width_px := a.width_px, height_px := a.height_px,
      max_iterations := a.max_iterations, pCheckN := a.pCheckN } ca

/-- Fixture coloring options: method 0, no smoothing, multiplier 1, no logs. -/
def copt0 : ColorOptions := ⟨0, false, false, 1, 0⟩

/-- Fixture: default mandelbrot options (exponent 2, escape limit 4). -/
noncomputable def oMandel : FractalOptions :=
  ⟨.mandelbrot, 2, 4, false, -2, 2, -2, 2, -0.8, 0.156⟩

/-- Fixture: clouds options. -/
noncomputable def oCloudsEx : FractalOptions :=
  ⟨.clouds, 2, 4, false, -2, 2, -2, 2, -0.8, 0.156⟩

/-- Fixture: oops options. -/
noncomputable def oOopsEx : FractalOptions :=
  ⟨.oops, 2, 4, false, -2, 2, -2, 2, -0.8, 0.156⟩

/-- Fixture: a trivial rand implementation over the unit state. -/
def rgUnit : RandGen Unit := ⟨fun _ => (), fun _ => (0, ())⟩

/-- Fixture: a 1 by 1 render over [-2,2] x [-2,2]; the only pixel samples
(0,0), inside the skip cardioid. -/
noncomputable def cfgOne : RenderCfg := ⟨oMandel, copt0, 1, 1, 10, 1⟩

/-- Fixture: mandelbrot over [-0.5,0.5] x [-0.5,0.5]. -/
noncomputable def oNarrow : FractalOptions :=
  ⟨.mandelbrot, 2, 4, false, -0.5, 0.5, -0.5, 0.5, -0.8, 0.156⟩

/-- Fixture: a 1 by 2 render whose two pixels sample (0, 0.25) and
(0, -0.25), both inside the skip cardioid. -/
noncomputable def cfgTwo : RenderCfg := ⟨oNarrow, copt0, 1, 2, 10, 1⟩

/-- Fixture: raw arguments with a valid fractal name but color method 18. -/
noncomputable def aBad18 : RawArgs :=
  ⟨"mandelbrot", 18, false, false, false, 1, 0, 2, 4, 10, -0.8, 0.156, 1, 1, 1, -2, 2, -2, 2⟩

/-- Everything observable about a render outcome: the statistics counters,
currentPoint, the poll position and the raster - all fields except the C
library rand state. -/
def RenderState.obs {σ : Type} (st : RenderState σ) :
    ℕ × ℕ × ℕ × ℕ × ℕ × ℕ × ℕ × ℕ × ℕ × ℕ × ((ℕ × ℕ) → ℕ × ℕ × ℕ) :=
  (st.periodic, st.escaped, st.not_escaped, st.skipped, st.run, st.max_n,
   st.max_period, st.max_period_n, st.currentPoint, st.pollIdx, st.img)

theorem kompleks.ext2 {a b : kompleks} (h1 : a.real = b.real)
    (h2 : a.imag = b.imag) : a = b := by
  cases a; cases b; simp_all

@[simp] theorem kompleks.zero_real : (0 : kompleks).real = 0 := rfl

@[simp] theorem kompleks.zero_imag : (0 : kompleks).imag = 0 := rfl

@[simp] theorem kompleks.add_real (a b : kompleks) :
    (a + b).real = a.real + b.real := rfl

@[simp] theorem kompleks.add_imag (a b : kompleks) :
    (a + b).imag = a.imag + b.imag := rfl

@[simp] theorem kompleks.mul_real (a b : kompleks) :
    (a * b).real = a.real * b.real - a.imag * b.imag := rfl

@[simp] theorem kompleks.mul_imag (a b : kompleks) :
    (a * b).imag = a.real * b.imag + a.imag * b.real := rfl

@[simp] theorem kompleks.norm_mk (a b : ℝ) :
    kompleks.norm ⟨a, b⟩ = a * a + b * b := rfl

theorem kompleks.hpow_eq (z : kompleks) (e : ℝ) : z ^ e = z.kpow e := rfl

theorem kompleks.abs_eq_complex (z : kompleks) : z.abs = Complex.abs z.toC := by
  simp [kompleks.abs, kompleks.norm, Complex.abs_apply, Complex.normSq_apply,
    kompleks.toC]

/-- The polar-form power at exponent 2 agrees with complex multiplication
(spec §4.1: power(z,2) == z*z). -/
theorem kompleks.kpow_two (z : kompleks) : z.kpow 2 = z * z := by
  have hre : z.abs * Real.cos z.arg = z.real := by
    rw [kompleks.abs_eq_complex]; exact Complex.abs_mul_cos_arg z.toC
  have him : z.abs * Real.sin z.arg = z.imag := by
    rw [kompleks.abs_eq_complex]; exact Complex.abs_mul_sin_arg z.toC
  have hpy := Real.sin_sq_add_cos_sq z.arg
  refine kompleks.ext2 ?_ ?_
  · show z.abs ^ (2 : ℝ) * Real.cos (2 * z.arg) = _
    rw [Real.rpow_two, Real.cos_two_mul, kompleks.mul_real, ← hre, ← him]
    linear_combination (z.abs ^ 2) * hpy
  · show z.abs ^ (2 : ℝ) * Real.sin (2 * z.arg) = _
    rw [Real.rpow_two, Real.sin_two_mul, kompleks.mul_imag, ← hre, ← him]
    ring

/-- The polar-form power of zero with a nonzero exponent is zero. -/
theorem kompleks.kpow_zero_base (e : ℝ) (he : e ≠ 0) :
    (0 : kompleks).kpow e = 0 := by
  have h0 : (0 : kompleks).abs = 0 := by
    simp [kompleks.abs, kompleks.norm]
  refine kompleks.ext2 ?_ ?_ <;>
    simp [kompleks.kpow, h0, Real.zero_rpow he]

/-- The mandelbrot recurrence at exponent 2 is Z*Z + c. -/
theorem iterate_mandel_two (o : FractalOptions) (ht : o.type = .mandelbrot)
    (he : o.exponent = 2) (Z c : kompleks) (n : ℕ) :
    iterate o Z c n = (Z * Z + c, c) := by
  rcases o with ⟨t, e, el, s, lb, rb, bb, ub, ja, jb⟩
  simp only at ht he
  subst ht; subst he
  show (Z ^ (2 : ℝ) + c, c) = _
  rw [kompleks.hpow_eq, kompleks.kpow_two]

@[simp] theorem kompleks.mk_zero : (⟨0, 0⟩ : kompleks) = 0 := rfl

/-- Shared helper: at the point (0,0) with the mandelbrot recurrence at
exponent 2 in normal mode, the first advanced value 0 matches the initial
window entry, so the loop ends in the periodicity branch during iteration
n = 0, with match distance pCheckN, one loop iteration entered and no
cancellation poll. -/
theorem classify_zero_periodic (o : FractalOptions) (maxIt pcN pi : ℕ)
    (ht : o.type = .mandelbrot) (he : o.exponent = 2) (hs : o.single = false)
    (hm : 1 ≤ maxIt) (hp : 1 ≤ pcN) :
    classifyPixel o maxIt pcN none 0 0 pi = (some (.periodic pcN 0), pi, 1) := by
  obtain ⟨k, rfl⟩ : ∃ k, pcN = k + 1 := ⟨pcN - 1, by omega⟩
  obtain ⟨j, rfl⟩ : ∃ j, maxIt = j + 1 := ⟨maxIt - 1, by omega⟩
  have hiz : initZ o.type 0 0 = 0 := by rw [ht]; rfl
  have hic : initC o 0 0 = 0 := by
    rw [initC, ht]; simp
  have hzz : (0 : kompleks) * 0 + 0 = 0 := by
    refine kompleks.ext2 ?_ ?_ <;> simp
  have hzc : iterate o 0 0 0 = (0, 0) := by
    rw [iterate_mandel_two o ht he, hzz]
  unfold classifyPixel
  rw [hiz, hic]
  simp [pixelLoop, hs, hzc, firstIdx, List.replicate_succ]

/-- Claim C5, as stated, is false: for c = (0,0) the classifier terminates in
the periodicity branch with loop counter n = 0 (after the single advancement
that computed Z1 = 0), not with n = 1. -/
theorem claim_C5_counterexample :
    (classifyPixel oMandel 10 1 none 0 0 0).1 = some (.periodic 1 0) ∧
      some (Outcome.periodic 1 0) ≠ some (Outcome.periodic 1 1) := by
  constructor
  · rw [classify_zero_periodic oMandel 10 1 0 rfl rfl rfl (by decide) (by decide)]
  · simp

/-- Claim C5, amended: for the mandelbrot variant with c = (0,0), exponent 2,
normal mode and window size pCheckN >= 1, the orbit stays exactly 0 and the
classifier terminates Periodic during loop iteration n = 0 - when the first
advanced value Z1 = 0 matches the initial window entry - with match distance
pCheckN, after entering exactly one loop iteration. -/
theorem claim_C5_amended (o : FractalOptions) (maxIt pcN pi : ℕ)
    (ht : o.type = .mandelbrot) (he : o.exponent = 2) (hs : o.single = false)
    (hm : 1 ≤ maxIt) (hp : 1 ≤ pcN) :
    classifyPixel o maxIt pcN none 0 0 pi = (some (.periodic pcN 0), pi, 1) :=
  classify_zero_periodic o maxIt pcN pi ht he hs hm hp

theorem claim_C5_witness :
    classifyPixel oMandel 5 2 none 0 0 3 = (some (.periodic 2 0), 3, 1) :=
  claim_C5_amended oMandel 5 2 3 rfl rfl rfl (by decide) (by decide)

/-- Claim C9: one advancement step of the clouds or oops variant returns
swap(Z)^e + c computed with the incoming c, and afterwards c equals the
incoming Z; nothing else about the step differs between the two variants. -/
theorem claim_C9 (o : FractalOptions) (Z c : kompleks) (n : ℕ)
    (h : o.type = .clouds ∨ o.type = .oops) :
    iterate o Z c n = ((Z.swap_xy ^ o.exponent) + c, Z) := by
  rcases o with ⟨t, e, el, s, lb, rb, bb, ub, ja, jb⟩
  simp only at h
  rcases h with h | h <;> subst h <;> rfl

theorem claim_C9_witness :
    (oCloudsEx.type = .clouds ∨ oCloudsEx.type = .oops) ∧
      iterate oCloudsEx ⟨1, 2⟩ ⟨3, 4⟩ 0 =
        (((kompleks.mk 1 2).swap_xy ^ oCloudsEx.exponent) + ⟨3, 4⟩, ⟨1, 2⟩) :=
  ⟨Or.inl rfl, claim_C9 oCloudsEx ⟨1, 2⟩ ⟨3, 4⟩ 0 (Or.inl rfl)⟩

/-- Claim C10: per-pixel seeding.  Z starts at zero exactly for the
mandelbrot and clouds variants and at the pixel point for every other
variant; oops starts from the point although its recurrence is the clouds
recurrence; c starts at the Julia constant for julia and at the pixel point
otherwise; and the classifier's periodicity window starts filled with
pCheckN copies of the initial Z. -/
theorem claim_C10 (o : FractalOptions) (t : FractalType) (x y : ℝ)
    (maxIt pcN pi : ℕ) (ca : Option ℕ) (Z c : kompleks) (n : ℕ) :
    (initZ t x y = if t = .mandelbrot ∨ t = .clouds then 0 else ⟨x, y⟩)
    ∧ (initC o x y = if o.type = .julia then ⟨o.juliaA, o.juliaB⟩ else ⟨x, y⟩)
    ∧ (o.type = .oops → initZ o.type x y = ⟨x, y⟩ ∧
        iterate o Z c n = ((Z.swap_xy ^ o.exponent) + c, Z))
    ∧ (o.type = .clouds → initZ o.type x y = 0 ∧
        iterate o Z c n = ((Z.swap_xy ^ o.exponent) + c, Z))
    ∧ classifyPixel o maxIt pcN ca x y pi
        = pixelLoop o maxIt pcN ca (maxIt + 1) 0 (initZ o.type x y) (initC o x y)
            (List.replicate pcN (initZ o.type x y)) pi := by
  refine ⟨?_, rfl, ?_, ?_, rfl⟩
  · cases t <;> rfl
  · intro h
    refine ⟨by rw [h]; rfl, ?_⟩
    rcases o with ⟨tt, e, el, s, lb, rb, bb, ub, ja, jb⟩
    simp only at h
    subst h; rfl
  · intro h
    refine ⟨by rw [h]; rfl, ?_⟩
    rcases o with ⟨tt, e, el, s, lb, rb, bb, ub, ja, jb⟩
    simp only at h
    subst h; rfl

theorem claim_C10_witness :
    initZ oOopsEx.type 1 2 = ⟨1, 2⟩ ∧
      iterate oOopsEx ⟨1, 2⟩ ⟨3, 4⟩ 0 =
        (((kompleks.mk 1 2).swap_xy ^ oOopsEx.exponent) + ⟨3, 4⟩, ⟨1, 2⟩) :=
  (claim_C10 oOopsEx .oops 1 2 5 1 0 none ⟨1, 2⟩ ⟨3, 4⟩ 0).2.2.1 rfl

theorem pixelLoop_eq_escape {o : FractalOptions} {maxIt pcN : ℕ} {ca : Option ℕ}
    {fuel n : ℕ} {Z c : kompleks} {w : List kompleks} {pi : ℕ}
    (h1 : (o.single = true ∧ n = maxIt) ∨
      (o.single = false ∧ Z.norm > o.escape_limit ∧ 0 < n)) :
    pixelLoop o maxIt pcN ca (fuel + 1) n Z c w pi = (some (.escaped n Z c), pi, 1) := by
  simp only [pixelLoop]
  rw [if_pos h1]

theorem pixelLoop_eq_max {o : FractalOptions} {maxIt pcN : ℕ} {ca : Option ℕ}
    {fuel n : ℕ} {Z c : kompleks} {w : List kompleks} {pi : ℕ}
    (h1 : ¬((o.single = true ∧ n = maxIt) ∨
      (o.single = false ∧ Z.norm > o.escape_limit ∧ 0 < n)))
    (h2 : n = maxIt) :
    pixelLoop o maxIt pcN ca (fuel + 1) n Z c w pi = (some (.notEscaped n), pi, 1) := by
  simp only [pixelLoop]
  rw [if_neg h1, if_pos h2]

theorem pixelLoop_eq_periodic {o : FractalOptions} {maxIt pcN : ℕ} {ca : Option ℕ}
    {fuel n : ℕ} {Z c : kompleks} {w : List kompleks} {pi : ℕ}
    (h1 : ¬((o.single = true ∧ n = maxIt) ∨
      (o.single = false ∧ Z.norm > o.escape_limit ∧ 0 < n)))
    (h2 : n ≠ maxIt)
    (h3 : o.single = false ∧ 0 < pcN ∧ (iterate o Z c n).1 ∈ w) :
    pixelLoop o maxIt pcN ca (fuel + 1) n Z c w pi
      = (some (.periodic (pcN - firstIdx w (iterate o Z c n).1) n), pi, 1) := by
  simp only [pixelLoop]
  rw [if_neg h1, if_neg h2, if_pos h3]

theorem pixelLoop_eq_cancel {o : FractalOptions} {maxIt pcN : ℕ} {ca : Option ℕ}
    {fuel n : ℕ} {Z c : kompleks} {w : List kompleks} {pi : ℕ}
    (h1 : ¬((o.single = true ∧ n = maxIt) ∨
      (o.single = false ∧ Z.norm > o.escape_limit ∧ 0 < n)))
    (h2 : n ≠ maxIt)
    (h3 : ¬(o.single = false ∧ 0 < pcN ∧ (iterate o Z c n).1 ∈ w))
    (hc : readCancel ca pi = true) :
    pixelLoop o maxIt pcN ca (fuel + 1) n Z c w pi = (none, pi + 1, 1) := by
  simp only [pixelLoop]
  rw [if_neg h1, if_neg h2, if_neg h3, hc]
  simp

theorem pixelLoop_eq_next {o : FractalOptions} {maxIt pcN : ℕ} {ca : Option ℕ}
    {fuel n : ℕ} {Z c : kompleks} {w : List kompleks} {pi : ℕ}
    (h1 : ¬((o.single = true ∧ n = maxIt) ∨
      (o.single = false ∧ Z.norm > o.escape_limit ∧ 0 < n)))
    (h2 : n ≠ maxIt)
    (h3 : ¬(o.single = false ∧ 0 < pcN ∧ (iterate o Z c n).1 ∈ w))
    (hc : readCancel ca pi = false) :
    pixelLoop o maxIt pcN ca (fuel + 1) n Z c w pi
      = ((pixelLoop o maxIt pcN ca fuel (n + 1) (iterate o Z c n).1 (iterate o Z c n).2
            (if o.single = false ∧ 0 < pcN then w.tail ++ [(iterate o Z c n).1] else w)
            (pi + 1)).1,
         (pixelLoop o maxIt pcN ca fuel (n + 1) (iterate o Z c n).1 (iterate o Z c n).2
            (if o.single = false ∧ 0 < pcN then w.tail ++ [(iterate o Z c n).1] else w)
            (pi + 1)).2.1,
         (pixelLoop o maxIt pcN ca fuel (n + 1) (iterate o Z c n).1 (iterate o Z c n).2
            (if o.single = false ∧ 0 < pcN then w.tail ++ [(iterate o Z c n).1] else w)
            (pi + 1)).2.2 + 1) := by
  simp only [pixelLoop]
  rw [if_neg h1, if_neg h2, if_neg h3, hc]
  simp

theorem orbitP_succ (o : FractalOptions) (x y : ℝ) (n : ℕ) :
    orbitP o x y (n + 1) = iterate o (orbitP o x y n).1 (orbitP o x y n).2 n := rfl

theorem windowAt_step (o : FractalOptions) (pcN : ℕ) (x y : ℝ) (n : ℕ)
    (h : ¬(o.single = false ∧ 0 < pcN ∧
      (iterate o (orbitP o x y n).1 (orbitP o x y n).2 n).1 ∈ windowAt o pcN x y n))
    (hs : o.single = false) :
    (if o.single = false ∧ 0 < pcN then
        (windowAt o pcN x y n).tail ++ [(iterate o (orbitP o x y n).1 (orbitP o x y n).2 n).1]
      else windowAt o pcN x y n)
      = windowAt o pcN x y (n + 1) := by
  have hiz : (iterate o (orbitP o x y n).1 (orbitP o x y n).2 n).1 = orbitZ o x y (n + 1) := rfl
  by_cases hp : 0 < pcN
  · have hnm : orbitZ o x y (n + 1) ∉ windowAt o pcN x y n := by
      intro hmem
      exact h ⟨hs, hp, by rw [hiz]; exact hmem⟩
    rw [if_pos ⟨hs, hp⟩, hiz]
    simp only [windowAt]
    rw [if_pos ⟨hp, hnm⟩]
  · rw [if_neg (by tauto)]
    simp only [windowAt]
    rw [if_neg (by tauto)]

theorem readCancel_none (i : ℕ) : readCancel none i = false := rfl

/-- With no cancellation, an uncancelled pixel loop always classifies. -/
theorem pixelLoop_progress (o : FractalOptions) (maxIt pcN : ℕ) :
    ∀ fuel n (Z c : kompleks) (w : List kompleks) (pi : ℕ),
      n + fuel = maxIt + 1 → n ≤ maxIt →
      (pixelLoop o maxIt pcN none fuel n Z c w pi).1.isSome = true := by
  intro fuel
  induction fuel with
  | zero => intro n Z c w pi hf hle; omega
  | succ fuel ih =>
    intro n Z c w pi hf hle
    by_cases h1 : (o.single = true ∧ n = maxIt) ∨
        (o.single = false ∧ Z.norm > o.escape_limit ∧ 0 < n)
    · rw [pixelLoop_eq_escape h1]; rfl
    · by_cases h2 : n = maxIt
      · rw [pixelLoop_eq_max h1 h2]; rfl
      · by_cases h3 : o.single = false ∧ 0 < pcN ∧ (iterate o Z c n).1 ∈ w
        · rw [pixelLoop_eq_periodic h1 h2 h3]; rfl
        · rw [pixelLoop_eq_next h1 h2 h3 (readCancel_none _)]
          exact ih (n + 1) _ _ _ (pi + 1) (by omega) (by omega)

/-- Soundness of the escaped outcome in normal mode: the loop, started in the
orbit state at n, reports Escaped n' only for the first n' with 0 < n' and
squared-modulus above the escape limit, checked before the recurrence was
applied for that n' (the reported Z is the orbit value at n', not n' + 1),
having entered n' + 1 - n loop iterations. -/
theorem pixelLoop_escaped_char (o : FractalOptions) (maxIt pcN : ℕ) (x y : ℝ)
    (hs : o.single = false) :
    ∀ fuel n pi n' Zf cf pp rr, n + fuel = maxIt + 1 →
      pixelLoop o maxIt pcN none fuel n (orbitP o x y n).1 (orbitP o x y n).2
          (windowAt o pcN x y n) pi = (some (.escaped n' Zf cf), pp, rr) →
      n ≤ n' ∧ n' ≤ maxIt ∧ 0 < n' ∧ (orbitZ o x y n').norm > o.escape_limit ∧
        (∀ m, n ≤ m → m < n' → ¬((orbitZ o x y m).norm > o.escape_limit ∧ 0 < m)) ∧
        Zf = orbitZ o x y n' ∧ cf = (orbitP o x y n').2 ∧ rr = n' + 1 - n := by
  intro fuel
  induction fuel with
  | zero =>
    intro n pi n' Zf cf pp rr hf heq
    simp only [pixelLoop] at heq
    simp at heq
  | succ fuel ih =>
    intro n pi n' Zf cf pp rr hf heq
    by_cases h1 : (o.single = true ∧ n = maxIt) ∨
        (o.single = false ∧ ((orbitP o x y n).1).norm > o.escape_limit ∧ 0 < n)
    · rw [pixelLoop_eq_escape h1] at heq
      simp only [Prod.mk.injEq, Option.some.injEq, Outcome.escaped.injEq] at heq
      obtain ⟨⟨e1, e2, e3⟩, _, e5⟩ := heq
      subst e1
      rcases h1 with ⟨ha, _⟩ | ⟨_, hnorm, hpos⟩
      · rw [hs] at ha; exact absurd ha (by simp)
      · exact ⟨le_rfl, by omega, hpos, hnorm, fun m hm1 hm2 => by omega,
          e2.symm, e3.symm, by omega⟩
    · by_cases h2 : n = maxIt
      · rw [pixelLoop_eq_max h1 h2] at heq
        simp at heq
      · by_cases h3 : o.single = false ∧ 0 < pcN ∧
            (iterate o (orbitP o x y n).1 (orbitP o x y n).2 n).1 ∈ windowAt o pcN x y n
        · rw [pixelLoop_eq_periodic h1 h2 h3] at heq
          simp at heq
        · rw [pixelLoop_eq_next h1 h2 h3 (readCancel_none _),
            windowAt_step o pcN x y n h3 hs,
            show iterate o (orbitP o x y n).1 (orbitP o x y n).2 n = orbitP o x y (n + 1)
              from rfl] at heq
          obtain ⟨res, pp2, rr2, hT⟩ :
              ∃ r p q, pixelLoop o maxIt pcN none fuel (n + 1) (orbitP o x y (n + 1)).1
                (orbitP o x y (n + 1)).2 (windowAt o pcN x y (n + 1)) (pi + 1) = (r, p, q) :=
            ⟨_, _, _, rfl⟩
          rw [hT] at heq
          simp only [Prod.mk.injEq] at heq
          obtain ⟨q1, q2, q3⟩ := heq
          subst q1
          obtain ⟨g1, g2, g3, g4, g5, g6, g7, g8⟩ :=
            ih (n + 1) (pi + 1) n' Zf cf pp2 rr2 (by omega) hT
          refine ⟨by omega, g2, g3, g4, ?_, g6, g7, by omega⟩
          intro m hm1 hm2
          by_cases hmn : m = n
          · subst hmn
            intro ⟨hn1, hn2⟩
            exact h1 (Or.inr ⟨hs, hn1, hn2⟩)
          · exact g5 m (by omega) hm2

/-- Soundness of the periodic outcome in normal mode: the loop reports
Periodic d n' only when the value advanced during iteration n' (the orbit
value at n' + 1) occurs in the window at n', with d the window size minus
the index of its first occurrence, and no iteration up to n' satisfied the
escape condition. -/
theorem pixelLoop_periodic_char (o : FractalOptions) (maxIt pcN : ℕ) (x y : ℝ)
    (hs : o.single = false) :
    ∀ fuel n pi d n' pp rr, n + fuel = maxIt + 1 →
      pixelLoop o maxIt pcN none fuel n (orbitP o x y n).1 (orbitP o x y n).2
          (windowAt o pcN x y n) pi = (some (.periodic d n'), pp, rr) →
      0 < pcN ∧ n ≤ n' ∧ n' < maxIt ∧
        orbitZ o x y (n' + 1) ∈ windowAt o pcN x y n' ∧
        d = pcN - firstIdx (windowAt o pcN x y n') (orbitZ o x y (n' + 1)) ∧
        (∀ m, n ≤ m → m ≤ n' → ¬((orbitZ o x y m).norm > o.escape_limit ∧ 0 < m)) ∧
        rr = n' + 1 - n := by
  intro fuel
  induction fuel with
  | zero =>
    intro n pi d n' pp rr hf heq
    simp only [pixelLoop] at heq
    simp at heq
  | succ fuel ih =>
    intro n pi d n' pp rr hf heq
    by_cases h1 : (o.single = true ∧ n = maxIt) ∨
        (o.single = false ∧ ((orbitP o x y n).1).norm > o.escape_limit ∧ 0 < n)
    · rw [pixelLoop_eq_escape h1] at heq
      simp at heq
    · by_cases h2 : n = maxIt
      · rw [pixelLoop_eq_max h1 h2] at heq
        simp at heq
      · by_cases h3 : o.single = false ∧ 0 < pcN ∧
            (iterate o (orbitP o x y n).1 (orbitP o x y n).2 n).1 ∈ windowAt o pcN x y n
        · rw [pixelLoop_eq_periodic h1 h2 h3] at heq
          simp only [Prod.mk.injEq, Option.some.injEq, Outcome.periodic.injEq] at heq
          obtain ⟨⟨e1, e2⟩, _, e5⟩ := heq
          subst e2
          have hiz : (iterate o (orbitP o x y n).1 (orbitP o x y n).2 n).1
              = orbitZ o x y (n + 1) := rfl
          refine ⟨h3.2.1, le_rfl, by omega, ?_, ?_, ?_, by omega⟩
          · rw [← hiz]; exact h3.2.2
          · rw [← e1, ← hiz]
          · intro m hm1 hm2
            have hmn : m = n := by omega
            subst hmn
            intro ⟨hn1, hn2⟩
            exact h1 (Or.inr ⟨hs, hn1, hn2⟩)
        · rw [pixelLoop_eq_next h1 h2 h3 (readCancel_none _),
            windowAt_step o pcN x y n h3 hs,
            show iterate o (orbitP o x y n).1 (orbitP o x y n).2 n = orbitP o x y (n + 1)
              from rfl] at heq
          obtain ⟨res, pp2, rr2, hT⟩ :
              ∃ r p q, pixelLoop o maxIt pcN none fuel (n + 1) (orbitP o x y (n + 1)).1
                (orbitP o x y (n + 1)).2 (windowAt o pcN x y (n + 1)) (pi + 1) = (r, p, q) :=
            ⟨_, _, _, rfl⟩
          rw [hT] at heq
          simp only [Prod.mk.injEq] at heq
          obtain ⟨q1, q2, q3⟩ := heq
          subst q1
          obtain ⟨g1, g2, g3, g4, g5, g6, g7⟩ :=
            ih (n + 1) (pi + 1) d n' pp2 rr2 (by omega) hT
          refine ⟨g1, by omega, g3, g4, g5, ?_, by omega⟩
          intro m hm1 hm2
          by_cases hmn : m = n
          · subst hmn
            intro ⟨hn1, hn2⟩
            exact h1 (Or.inr ⟨hs, hn1, hn2⟩)
          · exact g6 m (by omega) hm2

/-- Completeness of the bounded outcome in normal mode: when no iteration in
scope satisfies the escape condition and no advanced value matches its
window, the loop terminates notEscaped exactly at n = max_iterations, having
entered max_iterations + 1 - n iterations. -/
theorem pixelLoop_bounded_char (o : FractalOptions) (maxIt pcN : ℕ) (x y : ℝ)
    (hs : o.single = false) :
    ∀ fuel n pi, n + fuel = maxIt + 1 → n ≤ maxIt →
      (∀ m, n ≤ m → m ≤ maxIt → ¬((orbitZ o x y m).norm > o.escape_limit ∧ 0 < m)) →
      (∀ m, n ≤ m → m < maxIt → ¬(0 < pcN ∧ orbitZ o x y (m + 1) ∈ windowAt o pcN x y m)) →
      pixelLoop o maxIt pcN none fuel n (orbitP o x y n).1 (orbitP o x y n).2
          (windowAt o pcN x y n) pi
        = (some (.notEscaped maxIt), pi + (maxIt - n), maxIt + 1 - n) := by
  intro fuel
  induction fuel with
  | zero => intro n pi hf hle hesc hper; omega
  | succ fuel ih =>
    intro n pi hf hle hesc hper
    have h1 : ¬((o.single = true ∧ n = maxIt) ∨
        (o.single = false ∧ ((orbitP o x y n).1).norm > o.escape_limit ∧ 0 < n)) := by
      rintro (⟨ha, _⟩ | ⟨_, hn1, hn2⟩)
      · rw [hs] at ha; simp at ha
      · exact hesc n le_rfl hle ⟨hn1, hn2⟩
    by_cases h2 : n = maxIt
    · rw [pixelLoop_eq_max h1 h2]
      subst h2
      have hz : n - n = 0 := by omega
      have ho : n + 1 - n = 1 := by omega
      rw [hz, ho, Nat.add_zero]
    · have h3 : ¬(o.single = false ∧ 0 < pcN ∧
          (iterate o (orbitP o x y n).1 (orbitP o x y n).2 n).1 ∈ windowAt o pcN x y n) := by
        rintro ⟨_, hp, hm⟩
        exact hper n le_rfl (by omega) ⟨hp, hm⟩
      rw [pixelLoop_eq_next h1 h2 h3 (readCancel_none _),
        windowAt_step o pcN x y n h3 hs,
        show iterate o (orbitP o x y n).1 (orbitP o x y n).2 n = orbitP o x y (n + 1)
          from rfl]
      rw [ih (n + 1) (pi + 1) (by omega) (by omega)
        (fun m hm1 hm2 => hesc m (by omega) hm2)
        (fun m hm1 hm2 => hper m (by omega) hm2)]
      have e1 : pi + 1 + (maxIt - (n + 1)) = pi + (maxIt - n) := by omega
      have e2 : maxIt + 1 - (n + 1) + 1 = maxIt + 1 - n := by omega
      rw [e1, e2]

@[simp] theorem kompleks.mk_eq_zero (a b : ℝ) :
    ((⟨a, b⟩ : kompleks) = 0) ↔ (a = 0 ∧ b = 0) := by
  rw [show (0 : kompleks) = ⟨0, 0⟩ from rfl, kompleks.mk.injEq]

@[simp] theorem kompleks.zero_eq_mk (a b : ℝ) :
    ((0 : kompleks) = ⟨a, b⟩) ↔ (0 = a ∧ 0 = b) := by
  rw [show (0 : kompleks) = ⟨0, 0⟩ from rfl, kompleks.mk.injEq]

/-- Shared helper: at the pixel point (0,2) the default mandelbrot run
escapes during iteration n = 2, where Z2 = (-4,2) has squared-modulus 20
above the limit 4; the escape check happened before the recurrence advanced
for n = 2, three loop iterations were entered and two polls consumed. -/
theorem classify_zero_two :
    classifyPixel oMandel 10 1 none 0 2 0 = (some (.escaped 2 ⟨-4, 2⟩ ⟨0, 2⟩), 2, 3) := by
  have m0 : (0 : kompleks) * 0 + ⟨0, 2⟩ = ⟨0, 2⟩ := by
    refine kompleks.ext2 ?_ ?_ <;> norm_num
  have m1 : (⟨0, 2⟩ : kompleks) * ⟨0, 2⟩ + ⟨0, 2⟩ = ⟨-4, 2⟩ := by
    refine kompleks.ext2 ?_ ?_ <;> norm_num
  have hi0 : iterate oMandel 0 ⟨0, 2⟩ 0 = (⟨0, 2⟩, ⟨0, 2⟩) := by
    rw [iterate_mandel_two oMandel rfl rfl, m0]
  have hi1 : iterate oMandel ⟨0, 2⟩ ⟨0, 2⟩ 1 = (⟨-4, 2⟩, ⟨0, 2⟩) := by
    rw [iterate_mandel_two oMandel rfl rfl, m1]
  show pixelLoop oMandel 10 1 none 11 0 0 ⟨0, 2⟩ (List.replicate 1 0) 0 = _
  rw [pixelLoop_eq_next (by simp) (by omega)
    (by rw [hi0]; simp) (readCancel_none _)]
  rw [hi0]
  simp only [List.replicate, List.tail]
  rw [if_pos ⟨rfl, Nat.one_pos⟩]
  rw [pixelLoop_eq_next (by simp [oMandel]; norm_num) (by omega)
    (by rw [hi1]; simp) (readCancel_none _)]
  rw [hi1]
  rw [if_pos ⟨rfl, Nat.one_pos⟩]
  rw [pixelLoop_eq_escape (Or.inr ⟨rfl, by simp [oMandel]; norm_num, by omega⟩)]

/-- Claim C2: classifier termination conditions and their order in normal
mode.  An Escaped result at n carries the smallest n with 0 < n and
squared-modulus above the escape limit, and the colorized Z is the orbit
value at n (escape is checked before the recurrence advances for that n); a
Periodic result matches the value advanced during its iteration (the orbit
value at n + 1) against the window; when no escape and no window match
occur, the loop terminates Bounded exactly at n = max_iterations. -/
theorem claim_C2 (o : FractalOptions) (maxIt pcN pi : ℕ) (x y : ℝ)
    (hs : o.single = false) :
    (∀ n' Zf cf pp rr,
        classifyPixel o maxIt pcN none x y pi = (some (.escaped n' Zf cf), pp, rr) →
        0 < n' ∧ n' ≤ maxIt ∧ (orbitZ o x y n').norm > o.escape_limit ∧
          (∀ m, 0 < m → m < n' → (orbitZ o x y m).norm ≤ o.escape_limit) ∧
          Zf = orbitZ o x y n' ∧ cf = (orbitP o x y n').2 ∧ rr = n' + 1)
    ∧ (∀ d n' pp rr,
        classifyPixel o maxIt pcN none x y pi = (some (.periodic d n'), pp, rr) →
        orbitZ o x y (n' + 1) ∈ windowAt o pcN x y n' ∧
          d = pcN - firstIdx (windowAt o pcN x y n') (orbitZ o x y (n' + 1)) ∧
          n' < maxIt ∧ (∀ m, 0 < m → m ≤ n' → (orbitZ o x y m).norm ≤ o.escape_limit))
    ∧ ((∀ m, 0 < m → m ≤ maxIt → (orbitZ o x y m).norm ≤ o.escape_limit) →
        (∀ m, m < maxIt → ¬(0 < pcN ∧ orbitZ o x y (m + 1) ∈ windowAt o pcN x y m)) →
        classifyPixel o maxIt pcN none x y pi
          = (some (.notEscaped maxIt), pi + maxIt, maxIt + 1)) := by
  have hcl : classifyPixel o maxIt pcN none x y pi
      = pixelLoop o maxIt pcN none (maxIt + 1) 0 (orbitP o x y 0).1 (orbitP o x y 0).2
          (windowAt o pcN x y 0) pi := rfl
  refine ⟨?_, ?_, ?_⟩
  · intro n' Zf cf pp rr heq
    rw [hcl] at heq
    obtain ⟨g1, g2, g3, g4, g5, g6, g7, g8⟩ :=
      pixelLoop_escaped_char o maxIt pcN x y hs (maxIt + 1) 0 pi n' Zf cf pp rr
        (by omega) heq
    refine ⟨g3, g2, g4, ?_, g6, g7, by omega⟩
    intro m hm1 hm2
    by_contra hlt
    exact g5 m (by omega) hm2 ⟨not_le.mp hlt, hm1⟩
  · intro d n' pp rr heq
    rw [hcl] at heq
    obtain ⟨g1, g2, g3, g4, g5, g6, g7⟩ :=
      pixelLoop_periodic_char o maxIt pcN x y hs (maxIt + 1) 0 pi d n' pp rr
        (by omega) heq
    refine ⟨g4, g5, g3, ?_⟩
    intro m hm1 hm2
    by_contra hlt
    exact g6 m (by omega) hm2 ⟨not_le.mp hlt, hm1⟩
  · intro hesc hper
    rw [hcl]
    have hb := pixelLoop_bounded_char o maxIt pcN x y hs (maxIt + 1) 0 pi
      (by omega) (by omega)
      (fun m hm1 hm2 => by
        intro ⟨ha, hpos⟩
        exact absurd ha (not_lt.mpr (hesc m hpos hm2)))
      (fun m hm1 hm2 => hper m hm2)
    simpa using hb

theorem claim_C2_witness :
    0 < 2 ∧ 2 ≤ 10 ∧ (orbitZ oMandel 0 2 2).norm > oMandel.escape_limit ∧
      (∀ m, 0 < m → m < 2 → (orbitZ oMandel 0 2 m).norm ≤ oMandel.escape_limit) ∧
      (⟨-4, 2⟩ : kompleks) = orbitZ oMandel 0 2 2 ∧
      (⟨0, 2⟩ : kompleks) = (orbitP oMandel 0 2 2).2 ∧ (3 : ℕ) = 2 + 1 :=
  (claim_C2 oMandel 10 1 0 0 2 rfl).1 2 ⟨-4, 2⟩ ⟨0, 2⟩ 2 3 classify_zero_two

theorem renderPixel_eq_skip {σ : Type} {g : RandGen σ} {cfg : RenderCfg}
    {ca : Option ℕ} {pX pY : ℕ} {st : RenderState σ}
    (h : can_skip cfg.o (pixelX cfg pX) (pixelY cfg pY)) :
    renderPixel g cfg ca pX pY st = .ok { st with skipped := st.skipped + 1 } := by
  simp only [renderPixel]
  rw [if_pos h]

theorem renderPixel_eq_classify {σ : Type} {g : RandGen σ} {cfg : RenderCfg}
    {ca : Option ℕ} {pX pY : ℕ} {st : RenderState σ}
    (h : ¬can_skip cfg.o (pixelX cfg pX) (pixelY cfg pY)) :
    renderPixel g cfg ca pX pY st
      = applyOutcome g cfg.o cfg.copt pX pY
          (classifyPixel cfg.o cfg.max_iterations cfg.pCheckN ca
            (pixelX cfg pX) (pixelY cfg pY) st.pollIdx) st := by
  simp only [renderPixel]
  rw [if_neg h]

/-- An uncancelled pixel that the renderer accepts increments exactly one of
the four outcome counters and leaves currentPoint unchanged (the row loop
increments it afterwards). -/
theorem renderPixel_counts {σ : Type} (g : RandGen σ) (cfg : RenderCfg)
    (pX pY : ℕ) (st st' : RenderState σ)
    (h : renderPixel g cfg none pX pY st = .ok st') :
    st'.escaped + st'.not_escaped + st'.periodic + st'.skipped
        = st.escaped + st.not_escaped + st.periodic + st.skipped + 1
      ∧ st'.currentPoint = st.currentPoint := by
  by_cases hsk : can_skip cfg.o (pixelX cfg pX) (pixelY cfg pY)
  · rw [renderPixel_eq_skip hsk] at h
    simp only [Except.ok.injEq] at h
    subst h
    refine ⟨?_, by simp⟩
    simp
    omega
  · rw [renderPixel_eq_classify hsk] at h
    obtain ⟨ro, rp, rr, hres⟩ :
        ∃ a b c, classifyPixel cfg.o cfg.max_iterations cfg.pCheckN none
          (pixelX cfg pX) (pixelY cfg pY) st.pollIdx = (a, b, c) := ⟨_, _, _, rfl⟩
    rw [hres] at h
    have hsome : ro.isSome = true := by
      have hp := pixelLoop_progress cfg.o cfg.max_iterations cfg.pCheckN
        (cfg.max_iterations + 1) 0 (initZ cfg.o.type (pixelX cfg pX) (pixelY cfg pY))
        (initC cfg.o (pixelX cfg pX) (pixelY cfg pY))
        (List.replicate cfg.pCheckN (initZ cfg.o.type (pixelX cfg pX) (pixelY cfg pY)))
        st.pollIdx (by omega) (by omega)
      rw [show pixelLoop cfg.o cfg.max_iterations cfg.pCheckN none
            (cfg.max_iterations + 1) 0
            (initZ cfg.o.type (pixelX cfg pX) (pixelY cfg pY))
            (initC cfg.o (pixelX cfg pX) (pixelY cfg pY))
            (List.replicate cfg.pCheckN (initZ cfg.o.type (pixelX cfg pX) (pixelY cfg pY)))
            st.pollIdx
          = classifyPixel cfg.o cfg.max_iterations cfg.pCheckN none
              (pixelX cfg pX) (pixelY cfg pY) st.pollIdx from rfl, hres] at hp
      exact hp
    match ro, hsome with
    | some (.escaped n Zf cf), _ =>
      simp only [applyOutcome] at h
      rcases hcol : colorize g cfg.o cfg.copt cfg.copt.method Zf cf n st.rng with e | pr
      · rw [hcol] at h
        simp [Bind.bind, Except.bind] at h
      · rw [hcol] at h
        simp only [Bind.bind, Except.bind, Except.ok.injEq] at h
        subst h
        refine ⟨?_, by simp⟩
        simp
        omega
    | some (.notEscaped n), _ =>
      simp only [applyOutcome, Except.ok.injEq] at h
      subst h
      refine ⟨?_, by simp⟩
      simp
      omega
    | some (.periodic d n), _ =>
      simp only [applyOutcome, Except.ok.injEq] at h
      subst h
      refine ⟨?_, by simp⟩
      simp
      omega

/-- An uncancelled row that the renderer accepts processes all its columns:
each adds one classification and one currentPoint. -/
theorem renderRow_counts {σ : Type} (g : RandGen σ) (cfg : RenderCfg) (pY : ℕ) :
    ∀ cols pX (st st' : RenderState σ),
      renderRow g cfg none pY cols pX st = .ok st' →
      st'.escaped + st'.not_escaped + st'.periodic + st'.skipped
          = st.escaped + st.not_escaped + st.periodic + st.skipped + cols
        ∧ st'.currentPoint = st.currentPoint + cols := by
  intro cols
  induction cols with
  | zero =>
    intro pX st st' h
    simp only [renderRow, Except.ok.injEq] at h
    subst h
    exact ⟨rfl, rfl⟩
  | succ cols ih =>
    intro pX st st' h
    simp only [renderRow] at h
    rcases hp : renderPixel g cfg none pX pY st with e | st1
    · rw [hp] at h
      simp [Bind.bind, Except.bind] at h
    · rw [hp] at h
      simp only [Bind.bind, Except.bind] at h
      rw [readCancel_none] at h
      simp only [Bool.false_eq_true, if_false] at h
      obtain ⟨c1, c2⟩ := renderPixel_counts g cfg pX pY st st1 hp
      obtain ⟨d1, d2⟩ := ih (pX + 1) _ st' h
      simp only at d1 d2
      constructor
      · omega
      · omega

/-- An uncancelled accepted render processes rows * width pixels. -/
theorem renderRows_counts {σ : Type} (g : RandGen σ) (cfg : RenderCfg) :
    ∀ rows pY (st st' : RenderState σ),
      renderRows g cfg none rows pY st = .ok st' →
      st'.escaped + st'.not_escaped + st'.periodic + st'.skipped
          = st.escaped + st.not_escaped + st.periodic + st.skipped + rows * cfg.width_px
        ∧ st'.currentPoint = st.currentPoint + rows * cfg.width_px := by
  intro rows
  induction rows with
  | zero =>
    intro pY st st' h
    simp only [renderRows, Except.ok.injEq] at h
    subst h
    exact ⟨by omega, by omega⟩
  | succ rows ih =>
    intro pY st st' h
    simp only [renderRows] at h
    rcases hr : renderRow g cfg none pY cfg.width_px 0 st with e | st1
    · rw [hr] at h
      simp [Bind.bind, Except.bind] at h
    · rw [hr] at h
      simp only [Bind.bind, Except.bind] at h
      obtain ⟨c1, c2⟩ := renderRow_counts g cfg pY cfg.width_px 0 st st1 hr
      obtain ⟨d1, d2⟩ := ih (pY + 1) st1 st' h
      constructor
      · rw [d1, c1]; ring
      · rw [d2, c2]; ring

/-- Claim C3: a render that runs to completion without cancellation assigns
exactly one classification per pixel: the four statistics counters sum to
width * height, currentPoint reaches width * height, and the program's own
consistency check (main.cpp line 1080) does not fire. -/
theorem claim_C3 {σ : Type} (g : RandGen σ) (rng : σ) (cfg : RenderCfg)
    (st : RenderState σ) (h : createFractal g rng cfg none = .ok st) :
    st.escaped + st.not_escaped + st.periodic + st.skipped
        = cfg.width_px * cfg.height_px
      ∧ st.currentPoint = cfg.width_px * cfg.height_px
      ∧ bug_check st = false := by
  obtain ⟨c1, c2⟩ := renderRows_counts g cfg cfg.height_px 0 (initState rng) st h
  simp only [initState] at c1 c2
  refine ⟨by rw [c1]; ring, by rw [c2]; ring, ?_⟩
  simp only [bug_check, decide_eq_false_iff_not, ne_eq, not_not]
  omega

/-- Shared helper: the 1 by 1 render over [-2,2] x [-2,2] samples only (0,0),
which the cardioid test skips, so the render completes with one skipped
pixel, no colorizer invocation, and an untouched raster - for any coloring
options, valid or not. -/
theorem render_one_skip (copt : ColorOptions) :
    createFractal rgUnit () ⟨oMandel, copt, 1, 1, 10, 1⟩ none
      = .ok ⟨0, 0, 0, 1, 0, 0, 0, 0, 1, initImage, 1, ()⟩ := by
  have hx : pixelX ⟨oMandel, copt, 1, 1, 10, 1⟩ 0 = 0 := by
    simp [pixelX, oMandel]
  have hy : pixelY ⟨oMandel, copt, 1, 1, 10, 1⟩ 0 = 0 := by
    simp [pixelY, oMandel]
  have hskip : can_skip (⟨oMandel, copt, 1, 1, 10, 1⟩ : RenderCfg).o
      (pixelX ⟨oMandel, copt, 1, 1, 10, 1⟩ 0) (pixelY ⟨oMandel, copt, 1, 1, 10, 1⟩ 0) := by
    rw [show (⟨oMandel, copt, 1, 1, 10, 1⟩ : RenderCfg).o = oMandel from rfl, hx, hy]
    unfold can_skip
    rw [if_neg (by simp [oMandel]), if_pos (show oMandel.exponent = 2 from rfl)]
    left
    norm_num
  unfold createFractal
  simp only [renderRows, renderRow]
  rw [renderPixel_eq_skip hskip]
  simp [Bind.bind, Except.bind, readCancel_none, initState]

/-- Shared helper: the 1 by 2 render of cfgTwo with the cancellation flag
set after the first pixel completes (poll threshold 1).  Both sampled points
lie in the skip cardioid.  The first pixel is skipped and counted; the
cancel break then leaves only the first row, but the outer row loop has no
cancellation check, so the second row's pixel is still processed and counted
as skipped before its poll fires; currentPoint stays 1. -/
theorem render_two_cancelled :
    createFractal rgUnit () cfgTwo (some 1)
      = .ok ⟨0, 0, 0, 2, 0, 0, 0, 0, 1, initImage, 2, ()⟩ := by
  have hx : pixelX cfgTwo 0 = 0 := by
    norm_num [pixelX, cfgTwo, oNarrow]
  have hy0 : pixelY cfgTwo 0 = 0.25 := by
    norm_num [pixelY, cfgTwo, oNarrow]
  have hy1 : pixelY cfgTwo 1 = -0.25 := by
    norm_num [pixelY, cfgTwo, oNarrow]
  have hsk0 : can_skip cfgTwo.o (pixelX cfgTwo 0) (pixelY cfgTwo 0) := by
    rw [show cfgTwo.o = oNarrow from rfl, hx, hy0]
    unfold can_skip
    rw [if_neg (by simp [oNarrow]), if_pos (show oNarrow.exponent = 2 from rfl)]
    left
    norm_num
  have hsk1 : can_skip cfgTwo.o (pixelX cfgTwo 0) (pixelY cfgTwo 1) := by
    rw [show cfgTwo.o = oNarrow from rfl, hx, hy1]
    unfold can_skip
    rw [if_neg (by simp [oNarrow]), if_pos (show oNarrow.exponent = 2 from rfl)]
    left
    norm_num
  unfold createFractal
  simp only [show cfgTwo.height_px = 2 from rfl, show cfgTwo.width_px = 1 from rfl]
  simp only [renderRows, renderRow]
  rw [renderPixel_eq_skip hsk0]
  simp only [Bind.bind, Except.bind, initState, readCancel]
  norm_num
  rw [renderPixel_eq_skip hsk1]
  simp [Bind.bind, Except.bind, readCancel, initImage]

/-- Claim C8 (code bug): with the flag set after exactly N = 1 fully
processed pixel, the render does not stop: the first pixel of the following
row is still classified (skipped), so escaped + not_escaped + periodic +
skipped = 2 while only 1 pixel was processed before cancellation took
effect (currentPoint = 1), and the program's own consistency check at
main.cpp line 1080 fires ("There is a bug somewhere"): the break at line
1050 leaves only the inner pX loop and the outer pY loop polls nothing. -/
theorem claim_C8 :
    createFractal rgUnit () cfgTwo (some 1)
        = .ok ⟨0, 0, 0, 2, 0, 0, 0, 0, 1, initImage, 2, ()⟩
      ∧ bug_check (⟨0, 0, 0, 2, 0, 0, 0, 0, 1, initImage, 2, ()⟩ : RenderState Unit) = true
      ∧ (0 + 0 + 0 + 2 : ℕ) ≠ 1 :=
  ⟨render_two_cancelled, rfl, by decide⟩

theorem claim_C3_witness :
    0 + 0 + 0 + 1 = cfgOne.width_px * cfgOne.height_px ∧
      1 = cfgOne.width_px * cfgOne.height_px ∧
      bug_check (⟨0, 0, 0, 1, 0, 0, 0, 0, 1, initImage, 1, ()⟩ : RenderState Unit) = false := by
  have h := claim_C3 rgUnit () cfgOne ⟨0, 0, 0, 1, 0, 0, 0, 0, 1, initImage, 1, ()⟩
    (render_one_skip copt0)
  exact ⟨h.1, h.2.1, h.2.2⟩

/-- Claim C4, as stated, is false for the color-method half: a run with the
unknown color-method index 18 is not stopped at configuration time - here it
renders its pixel (skipped by the cardioid test, so the colorizer is never
invoked) and completes successfully. -/
theorem claim_C4_counterexample :
    mainRun rgUnit () aBad18 none = .ok ⟨0, 0, 0, 1, 0, 0, 0, 0, 1, initImage, 1, ()⟩ ∧
      17 < aBad18.method := by
  constructor
  · rw [show mainRun rgUnit () aBad18 none
        = createFractal rgUnit () ⟨oMandel, ⟨18, false, false, 1, 0⟩, 1, 1, 10, 1⟩ none
      from rfl]
    exact render_one_skip ⟨18, false, false, 1, 0⟩
  · decide

/-- Claim C4, amended: an unknown fractal-variant name is fatal at
configuration time, before the render is entered; an unknown color-method
index is not validated at configuration - the error is raised only when the
colorizer is invoked during rendering (at an escaped pixel), and a render
whose pixels never reach the colorizer completes despite the invalid
index. -/
theorem claim_C4_amended {σ : Type} (g : RandGen σ) (rng : σ) (a : RawArgs)
    (ca : Option ℕ) (msg : String) (m : ℕ) (o : FractalOptions)
    (copt : ColorOptions) (Z c : kompleks) (n : ℕ)
    (hbad : string_to_fractal_type a.typestr = .error msg)
    (hm : 18 ≤ m) :
    mainRun g rng a ca = .error msg ∧
      colorize g o copt m Z c n rng = .error ("Invalid color method: " ++ toString m) := by
  constructor
  · unfold mainRun
    rw [hbad]
    rfl
  · obtain ⟨k, rfl⟩ : ∃ k, m = k + 18 := ⟨m - 18, by omega⟩
    unfold colorize
    rw [dif_neg (by omega)]
    simp [Bind.bind, Except.bind, colorizeF, pure, Except.pure]

theorem claim_C4_witness :
    mainRun rgUnit ()
        ⟨"frobnicate", 0, false, false, false, 1, 0, 2, 4, 10, -0.8, 0.156,
          1, 1, 1, -2, 2, -2, 2⟩ none
      = .error ("Unknown fractal type: " ++ "frobnicate") ∧
      colorize rgUnit oMandel copt0 18 0 0 0 ()
        = .error ("Invalid color method: " ++ toString (18 : ℕ)) :=
  claim_C4_amended rgUnit ()
    ⟨"frobnicate", 0, false, false, false, 1, 0, 2, 4, 10, -0.8, 0.156,
      1, 1, 1, -2, 2, -2, 2⟩ none ("Unknown fractal type: " ++ "frobnicate") 18
    oMandel copt0 0 0 0 rfl (by decide)

/-- The clamp-and-round step always lands in [0,255]. -/
theorem Chan.clampRound_le (ch : Chan) : ch.clampRound ≤ 255 := by
  cases ch with
  | inf => rfl
  | ninf => exact Nat.zero_le _
  | fin x =>
    simp only [Chan.clampRound]
    split_ifs with h1 h2
    · exact le_rfl
    · exact Nat.zero_le _
    · have hle : x ≤ 255 := not_lt.mp h1
      have h255 : round x ≤ 255 := by
        rw [round_eq]
        have : (⌊x + 1 / 2⌋ : ℤ) ≤ ⌊(255 : ℝ) + 1 / 2⌋ := by
          exact Int.floor_le_floor (by linarith)
        have h2 : (⌊(255 : ℝ) + 1 / 2⌋ : ℤ) = 255 := by norm_num
        omega
      exact Int.toNat_le.mpr (by exact_mod_cast h255)

/-- For every valid method index the formula switch succeeds. -/
theorem colorizeF_ok {σ : Type} (g : RandGen σ) (o : FractalOptions)
    (copt : ColorOptions) (fr : ℕ × ℕ × ℕ) (m : ℕ) (Z c : kompleks) (n : ℕ)
    (rng : σ) (hm : m ≤ 17) :
    ∃ ch rng2, colorizeF g o copt fr m Z c n rng = .ok (ch, rng2) := by
  interval_cases m <;>
    simp only [colorizeF] <;>
    first
      | exact ⟨_, _, rfl⟩
      | (split_ifs <;> exact ⟨_, _, rfl⟩)

/-- Claim C6: for every method 0-17, colorize succeeds and equals the
pipeline that applies c_log log passes to the three formula channels, then
the multiplier unless the method is 9, then the clamp to [0,255] with
rounding; every resulting 8-bit channel is at most 255 (the positive
infinity sentinel included, which clamps to 255), and the multiplier step is
the identity for method 9. -/
theorem claim_C6 {σ : Type} (g : RandGen σ) (o : FractalOptions)
    (copt : ColorOptions) (m : ℕ) (Z c : kompleks) (n : ℕ) (rng : σ)
    (hm : m ≤ 17) :
    ∃ fr ch rng1 rng2,
      (m = 9 → colorize g o copt 0 Z c n rng = .ok (fr, rng1)) ∧
      (m ≠ 9 → fr = (0, 0, 0) ∧ rng1 = rng) ∧
      colorizeF g o copt fr m Z c n rng1 = .ok (ch, rng2) ∧
      colorize g o copt m Z c n rng
        = .ok (clampRound3 (applyMult copt m (applyLogs copt.c_log ch)), rng2) ∧
      (clampRound3 (applyMult copt m (applyLogs copt.c_log ch))).1 ≤ 255 ∧
      (clampRound3 (applyMult copt m (applyLogs copt.c_log ch))).2.1 ≤ 255 ∧
      (clampRound3 (applyMult copt m (applyLogs copt.c_log ch))).2.2 ≤ 255 ∧
      applyMult copt 9 (applyLogs copt.c_log ch) = applyLogs copt.c_log ch := by
  by_cases h9 : m = 9
  · subst h9
    obtain ⟨ch0, r0, h0⟩ := colorizeF_ok g o copt 0 0 Z c n rng (by decide)
    have hc0 : colorize g o copt 0 Z c n rng
        = .ok (clampRound3 (applyMult copt 0 (applyLogs copt.c_log ch0)), r0) := by
      unfold colorize
      rw [dif_neg (by decide)]
      simp [Bind.bind, Except.bind, pure, Except.pure, h0]
    obtain ⟨ch9, r9, h9f⟩ := colorizeF_ok g o copt
      (clampRound3 (applyMult copt 0 (applyLogs copt.c_log ch0))) 9 Z c n r0 (by decide)
    refine ⟨_, ch9, r0, r9, fun _ => hc0, fun hne => absurd rfl hne, h9f, ?_,
      Chan.clampRound_le _, Chan.clampRound_le _, Chan.clampRound_le _, by simp [applyMult]⟩
    unfold colorize
    rw [dif_pos rfl]
    simp [Bind.bind, Except.bind, pure, Except.pure, hc0, h9f]
  · obtain ⟨ch, r2, hf⟩ := colorizeF_ok g o copt 0 m Z c n rng hm
    refine ⟨0, ch, rng, r2, fun h => absurd h h9, fun _ => ⟨rfl, rfl⟩, hf, ?_,
      Chan.clampRound_le _, Chan.clampRound_le _, Chan.clampRound_le _, by simp [applyMult]⟩
    unfold colorize
    rw [dif_neg h9]
    simp [Bind.bind, Except.bind, pure, Except.pure, hf]

theorem claim_C6_witness :
    ∃ fr ch rng1 rng2,
      ((2 : ℕ) = 9 → colorize rgUnit oMandel copt0 0 0 0 0 () = .ok (fr, rng1)) ∧
      ((2 : ℕ) ≠ 9 → fr = (0, 0, 0) ∧ rng1 = ()) ∧
      colorizeF rgUnit oMandel copt0 fr 2 0 0 0 rng1 = .ok (ch, rng2) ∧
      colorize rgUnit oMandel copt0 2 0 0 0 ()
        = .ok (clampRound3 (applyMult copt0 2 (applyLogs copt0.c_log ch)), rng2) ∧
      (clampRound3 (applyMult copt0 2 (applyLogs copt0.c_log ch))).1 ≤ 255 ∧
      (clampRound3 (applyMult copt0 2 (applyLogs copt0.c_log ch))).2.1 ≤ 255 ∧
      (clampRound3 (applyMult copt0 2 (applyLogs copt0.c_log ch))).2.2 ≤ 255 ∧
      applyMult copt0 9 (applyLogs copt0.c_log ch) = applyLogs copt0.c_log ch :=
  claim_C6 rgUnit oMandel copt0 2 0 0 0 () (by decide)

/-- The formula switch never reads the rand state except in method 14, which
reseeds it from n first: two runs from different states produce the same
channels and the same error behavior. -/
theorem colorizeF_pair {σ : Type} (g : RandGen σ) (o : FractalOptions)
    (copt : ColorOptions) :
    ∀ (fr : ℕ × ℕ × ℕ) m (Z c : kompleks) n (st1 st2 : σ),
      (∃ e, colorizeF g o copt fr m Z c n st1 = .error e ∧
        colorizeF g o copt fr m Z c n st2 = .error e)
      ∨ (∃ ch r1 r2, colorizeF g o copt fr m Z c n st1 = .ok (ch, r1) ∧
          colorizeF g o copt fr m Z c n st2 = .ok (ch, r2)) := by
  intro fr m Z c n st1 st2
  by_cases hm : m ≤ 17
  · right
    interval_cases m <;>
      simp only [colorizeF] <;>
      first
        | exact ⟨_, _, _, rfl, rfl⟩
        | (split_ifs <;> exact ⟨_, _, _, rfl, rfl⟩)
  · left
    obtain ⟨k, rfl⟩ : ∃ k, m = k + 18 := ⟨m - 18, by omega⟩
    exact ⟨_, rfl, rfl⟩

/-- colorize is insensitive to the incoming rand state: same pixel, same
error behavior. -/
theorem colorize_pair {σ : Type} (g : RandGen σ) (o : FractalOptions)
    (copt : ColorOptions) :
    ∀ m (Z c : kompleks) n (st1 st2 : σ),
      (∃ e, colorize g o copt m Z c n st1 = .error e ∧
        colorize g o copt m Z c n st2 = .error e)
      ∨ (∃ px r1 r2, colorize g o copt m Z c n st1 = .ok (px, r1) ∧
          colorize g o copt m Z c n st2 = .ok (px, r2)) := by
  have aux : ∀ m, m ≠ 9 → ∀ (Z c : kompleks) n (st1 st2 : σ),
      (∃ e, colorize g o copt m Z c n st1 = .error e ∧
        colorize g o copt m Z c n st2 = .error e)
      ∨ (∃ px r1 r2, colorize g o copt m Z c n st1 = .ok (px, r1) ∧
          colorize g o copt m Z c n st2 = .ok (px, r2)) := by
    intro m h9 Z c n st1 st2
    rcases colorizeF_pair g o copt 0 m Z c n st1 st2 with ⟨e, he1, he2⟩ |
      ⟨ch, r1, r2, hc1, hc2⟩
    · left
      refine ⟨e, ?_, ?_⟩ <;>
        · unfold colorize
          rw [dif_neg h9]
          simp [Bind.bind, Except.bind, pure, Except.pure, he1, he2]
    · right
      refine ⟨clampRound3 (applyMult copt m (applyLogs copt.c_log ch)), r1, r2, ?_, ?_⟩ <;>
        · unfold colorize
          rw [dif_neg h9]
          simp [Bind.bind, Except.bind, pure, Except.pure, hc1, hc2]
  intro m Z c n st1 st2
  by_cases h9 : m = 9
  · subst h9
    rcases aux 0 (by decide) Z c n st1 st2 with ⟨e, he1, he2⟩ | ⟨px, r1, r2, h01, h02⟩
    · left
      refine ⟨e, ?_, ?_⟩ <;>
        · unfold colorize
          rw [dif_pos rfl]
          simp [Bind.bind, Except.bind, pure, Except.pure, he1, he2]
    · rcases colorizeF_pair g o copt px 9 Z c n r1 r2 with ⟨e, f1, f2⟩ |
        ⟨ch, q1, q2, f1, f2⟩
      · left
        refine ⟨e, ?_, ?_⟩ <;>
          · unfold colorize
            rw [dif_pos rfl]
            simp [Bind.bind, Except.bind, pure, Except.pure, h01, h02, f1, f2]
      · right
        refine ⟨clampRound3 (applyMult copt 9 (applyLogs copt.c_log ch)), q1, q2, ?_, ?_⟩ <;>
          · unfold colorize
            rw [dif_pos rfl]
            simp [Bind.bind, Except.bind, pure, Except.pure, h01, h02, f1, f2]
  · exact aux m h9 Z c n st1 st2

/-- One pixel behaves identically from two render states that agree on
everything except the rand state. -/
theorem renderPixel_pair {σ : Type} (g : RandGen σ) (cfg : RenderCfg)
    (ca : Option ℕ) (pX pY : ℕ) (st1 st2 : RenderState σ)
    (h : st1.obs = st2.obs) :
    (∃ e, renderPixel g cfg ca pX pY st1 = .error e ∧
      renderPixel g cfg ca pX pY st2 = .error e)
    ∨ (∃ st1' st2', renderPixel g cfg ca pX pY st1 = .ok st1' ∧
        renderPixel g cfg ca pX pY st2 = .ok st2' ∧ st1'.obs = st2'.obs) := by
  simp only [RenderState.obs, Prod.mk.injEq] at h
  obtain ⟨e1, e2, e3, e4, e5, e6, e7, e8, e9, e10, e11⟩ := h
  by_cases hsk : can_skip cfg.o (pixelX cfg pX) (pixelY cfg pY)
  · right
    refine ⟨_, _, renderPixel_eq_skip hsk, renderPixel_eq_skip hsk, ?_⟩
    simp [RenderState.obs, e1, e2, e3, e4, e5, e6, e7, e8, e9, e10, e11]
  · rw [@renderPixel_eq_classify σ g cfg ca pX pY st1 hsk,
      @renderPixel_eq_classify σ g cfg ca pX pY st2 hsk, e10]
    obtain ⟨ro, rp, rr, hres⟩ :
        ∃ a b c, classifyPixel cfg.o cfg.max_iterations cfg.pCheckN ca
          (pixelX cfg pX) (pixelY cfg pY) st2.pollIdx = (a, b, c) := ⟨_, _, _, rfl⟩
    rw [hres]
    match ro with
    | none =>
      right
      refine ⟨_, _, rfl, rfl, ?_⟩
      simp [applyOutcome, RenderState.obs, e1, e2, e3, e4, e5, e6, e7, e8, e9, e10, e11]
    | some (.notEscaped n) =>
      right
      refine ⟨_, _, rfl, rfl, ?_⟩
      simp [applyOutcome, RenderState.obs, e1, e2, e3, e4, e5, e6, e7, e8, e9, e10, e11]
    | some (.periodic d n) =>
      right
      refine ⟨_, _, rfl, rfl, ?_⟩
      simp [applyOutcome, RenderState.obs, e1, e2, e3, e4, e5, e6, e7, e8, e9, e10, e11]
    | some (.escaped n Zf cf) =>
      simp only [applyOutcome]
      rcases colorize_pair g cfg.o cfg.copt cfg.copt.method Zf cf n st1.rng st2.rng with
        ⟨e, hc1, hc2⟩ | ⟨px, r1, r2, hc1, hc2⟩
      · left
        rw [hc1, hc2]
        exact ⟨e, rfl, rfl⟩
      · right
        rw [hc1, hc2]
        simp only [Bind.bind, Except.bind]
        refine ⟨_, _, rfl, rfl, ?_⟩
        simp [RenderState.obs, e1, e2, e3, e4, e5, e6, e7, e8, e9, e10, e11]

/-- A row behaves identically from two render states that agree on
everything except the rand state. -/
theorem renderRow_pair {σ : Type} (g : RandGen σ) (cfg : RenderCfg)
    (ca : Option ℕ) (pY : ℕ) :
    ∀ cols pX (st1 st2 : RenderState σ), st1.obs = st2.obs →
      (∃ e, renderRow g cfg ca pY cols pX st1 = .error e ∧
        renderRow g cfg ca pY cols pX st2 = .error e)
      ∨ (∃ st1' st2', renderRow g cfg ca pY cols pX st1 = .ok st1' ∧
          renderRow g cfg ca pY cols pX st2 = .ok st2' ∧ st1'.obs = st2'.obs) := by
  intro cols
  induction cols with
  | zero =>
    intro pX st1 st2 h
    right
    exact ⟨st1, st2, rfl, rfl, h⟩
  | succ cols ih =>
    intro pX st1 st2 h
    simp only [renderRow]
    rcases renderPixel_pair g cfg ca pX pY st1 st2 h with ⟨e, hp1, hp2⟩ |
      ⟨st1', st2', hp1, hp2, hobs⟩
    · left
      rw [hp1, hp2]
      exact ⟨e, rfl, rfl⟩
    · rw [hp1, hp2]
      simp only [Bind.bind, Except.bind]
      have hpoll : st1'.pollIdx = st2'.pollIdx := by
        have := congrArg (fun t :
          ℕ × ℕ × ℕ × ℕ × ℕ × ℕ × ℕ × ℕ × ℕ × ℕ × ((ℕ × ℕ) → ℕ × ℕ × ℕ) =>
            t.2.2.2.2.2.2.2.2.2.1) hobs
        simpa [RenderState.obs] using this
      rw [hpoll]
      rcases hrc : readCancel ca st2'.pollIdx with hfalse | htrue
      · simp only [Bool.false_eq_true, if_false]
        refine ih (pX + 1) _ _ ?_
        simp only [RenderState.obs, Prod.mk.injEq] at hobs
        obtain ⟨o1, o2, o3, o4, o5, o6, o7, o8, o9, o10, o11⟩ := hobs
        simp [RenderState.obs, o1, o2, o3, o4, o5, o6, o7, o8, o9, o10, o11, hpoll]
      · simp only [if_true]
        right
        refine ⟨_, _, rfl, rfl, ?_⟩
        simp only [RenderState.obs, Prod.mk.injEq] at hobs
        obtain ⟨o1, o2, o3, o4, o5, o6, o7, o8, o9, o10, o11⟩ := hobs
        simp [RenderState.obs, o1, o2, o3, o4, o5, o6, o7, o8, o9, o10, o11, hpoll]

/-- The grid traversal behaves identically from two render states that agree
on everything except the rand state. -/
theorem renderRows_pair {σ : Type} (g : RandGen σ) (cfg : RenderCfg)
    (ca : Option ℕ) :
    ∀ rows pY (st1 st2 : RenderState σ), st1.obs = st2.obs →
      (∃ e, renderRows g cfg ca rows pY st1 = .error e ∧
        renderRows g cfg ca rows pY st2 = .error e)
      ∨ (∃ st1' st2', renderRows g cfg ca rows pY st1 = .ok st1' ∧
          renderRows g cfg ca rows pY st2 = .ok st2' ∧ st1'.obs = st2'.obs) := by
  intro rows
  induction rows with
  | zero =>
    intro pY st1 st2 h
    right
    exact ⟨st1, st2, rfl, rfl, h⟩
  | succ rows ih =>
    intro pY st1 st2 h
    simp only [renderRows]
    rcases renderRow_pair g cfg ca pY cfg.width_px 0 st1 st2 h with ⟨e, hp1, hp2⟩ |
      ⟨st1', st2', hp1, hp2, hobs⟩
    · left
      rw [hp1, hp2]
      exact ⟨e, rfl, rfl⟩
    · rw [hp1, hp2]
      simp only [Bind.bind, Except.bind]
      exact ih (pY + 1) st1' st2' hobs

/-- Claim C7: a render's raster and statistics are a pure function of the
configuration - two runs with identical FractalParameters, dimensions,
iteration budget and color options produce identical observables, whatever
the initial C rand state (so bit-identical output across runs for every
color method; method 14 reseeds the generator from the iteration count at
each pixel, so even it cannot make two runs differ). -/
theorem claim_C7 {σ : Type} (g : RandGen σ) (cfg : RenderCfg) (ca : Option ℕ)
    (rng1 rng2 : σ) :
    (∃ e, createFractal g rng1 cfg ca = .error e ∧
      createFractal g rng2 cfg ca = .error e)
    ∨ (∃ st1 st2, createFractal g rng1 cfg ca = .ok st1 ∧
        createFractal g rng2 cfg ca = .ok st2 ∧ st1.obs = st2.obs) :=
  renderRows_pair g cfg ca cfg.height_px 0 (initState rng1) (initState rng2) rfl
